import Mathlib

/-!
Verification of the typstai streaming conversation orchestrator.

This file gives a shallow embedding of the core of the repository:

* `renderTypst` — the Render Collaborator (`src/tools/typst-renderer.ts`),
  embedded over an explicit environment `RenderEnv` that records the outcome
  of every external effect (temp-dir creation, file writes, the `typst`
  compiler invocation, directory listing, per-page reads, unlinks).  Each
  effect is an `Except String` value: `.error e` models the corresponding
  `await` throwing a JavaScript exception with message `e`.
* the Turn Engine — `handleChatStream` (`src/server/index.ts`), embedded as a
  pure function from the model's event stream (plus oracles for the external
  collaborators: the renderer and the runtime JSON parser) to the ordered
  trace of observable actions: wire frames sent, transcript-store appends,
  conversation-record updates and render requests.
* the Session Replay Builder — `loadConversation` in
  `src/components/ChatSidebar.tsx`, embedded as `buildMessages`.
* the Event Encoder — the SSE framing `event: <kind>\ndata: <json>\n\n`
  together with a faithful model of `JSON.stringify` string escaping.
-/

/-! ## Render Collaborator: `renderTypst` from `src/tools/typst-renderer.ts` -/

/-- Output format accepted by the renderer (`"pdf" | "png" | "svg"`). -/
inductive Format where
  | pdf
  | png
  | svg
deriving DecidableEq, Repr

/-- The file-extension / format string of a `Format`. -/
def Format.str : Format → String
  | .pdf => "pdf"
  | .png => "png"
  | .svg => "svg"

/-- `TypstRenderRequest` from the source. -/
structure TypstRenderRequest where
  code : String
  format : Format
deriving DecidableEq, Repr

/-- `TypstRenderResponse` from the source; absent optional fields are `none`. -/
structure TypstRenderResponse where
  success : Bool
  data : Option String := none
  pages : Option (List String) := none
  mimeType : Option String := none
  error : Option String := none
deriving DecidableEq, Repr

/-- One call's external environment: the outcome of every effect `renderTypst`
performs.  `.error e` at a step models that `await` throwing an exception
whose message is `e`. -/
structure RenderEnv where
  tmpdir : String
  mkdirTemp : Except String Unit
  uuid : String
  writeInput : Except String Unit
  stderrText : Except String String
  exitCode : Except String Int
  readDir : Except String (List String)
  readFileText : String → Except String String
  readFileB64 : String → Except String String
  unlinkFile : String → Except String Unit

/-- `join` from `node:path`, for the paths this code builds. -/
def pathJoin (a b : String) : String := a ++ "/" ++ b

/-- `TEMP_DIR = join(tmpdir(), "typstai")`. -/
def tempDirOf (env : RenderEnv) : String := pathJoin env.tmpdir "typstai"

/-- JavaScript whitespace as used by `String.prototype.trim` (restricted to
the ASCII whitespace characters relevant here). -/
def jsWhitespace (c : Char) : Bool :=
  c = ' ' || c = '\t' || c = '\n' || c = '\r' || c = Char.ofNat 11 || c = Char.ofNat 12

/-- `request.code.trim() === ""`: every character is whitespace. -/
def blankCode (s : String) : Bool := s.toList.all jsWhitespace

/-- Numeric value of a digit string, as `parseInt` on a match of `\d+`. -/
def digitsVal (ds : List Char) : Nat :=
  ds.foldl (fun a c => a * 10 + (c.toNat - 48)) 0

/-- The page number the source extracts from a generated filename with the
regex `-(\d+)\.<ext>$` (`parseInt(match?.[1] || "0")`): the maximal digit run
immediately before the final `.<ext>`, provided it is nonempty and preceded
by `-`; otherwise `0`. -/
def suffixNum (ext : String) (f : String) : Nat :=
  let rcs := f.toList.reverse
  let rext := ext.toList.reverse ++ ['.']
  if rcs.take rext.length = rext then
    let rest := rcs.drop rext.length
    let drev := rest.takeWhile Char.isDigit
    if drev ≠ [] ∧ (rest.drop drev.length).head? = some '-' then digitsVal drev.reverse
    else 0
  else 0

/-- The comparator `(a, b) => numA - numB` of the source, as a `≤` test. -/
def leKey (ext : String) (a b : String) : Bool := suffixNum ext a ≤ suffixNum ext b

/-- Stable insertion of `x` into a sorted list: `x` is placed after every
element that compares `≤ x`. -/
def insertSorted (le : String → String → Bool) (x : String) : List String → List String
  | [] => [x]
  | y :: ys => if le y x then y :: insertSorted le x ys else x :: y :: ys

/-- The source's `pageFiles.sort((a, b) => numA - numB)`: a stable sort by the
numeric filename suffix (JavaScript `Array.prototype.sort` is stable, so any
stable sort by the same key computes the same list). -/
def sortPages (ext : String) : List String → List String
  | [] => []
  | x :: xs => insertSorted (leKey ext) x (sortPages ext xs)

/-- `f.startsWith(p)` on the embedded strings. -/
def strHasPrefix (p s : String) : Bool := s.toList.take p.toList.length == p.toList

/-- `f.endsWith(p)` on the embedded strings. -/
def strHasSuffix (p s : String) : Bool :=
  s.toList.reverse.take p.toList.length == p.toList.reverse

/-- `files.filter((f) => f.startsWith(id + "-") && f.endsWith("." + ext))`. -/
def matchingPageFiles (uuid ext : String) (files : List String) : List String :=
  files.filter (fun f => strHasPrefix (uuid ++ "-") f && strHasSuffix ("." ++ ext) f)

/-- MIME type table of the source. -/
def mimeOf : Format → String
  | .pdf => "application/pdf"
  | .png => "image/png"
  | .svg => "image/svg+xml"

/-- The per-page loop of the multi-page branch: for each page file read its
content (text for SVG, base64 for PNG), push it, and unlink the file. -/
def readPages (env : RenderEnv) (fmt : Format) : List String → Except String (List String)
  | [] => .ok []
  | f :: fs =>
    let pagePath := pathJoin (tempDirOf env) f
    match (if fmt = Format.svg then env.readFileText pagePath else env.readFileB64 pagePath) with
    | .error e => .error e
    | .ok content =>
      match env.unlinkFile pagePath with
      | .error e => .error e
      | .ok _ =>
        match readPages env fmt fs with
        | .error e => .error e
        | .ok rest => .ok (content :: rest)

/-- Body of the `try { ... }` block of `renderTypst`. -/
def renderBody (env : RenderEnv) (request : TypstRenderRequest) : Except String TypstRenderResponse :=
  let id := env.uuid
  let inputPath := pathJoin (tempDirOf env) (id ++ ".typ")
  if request.code == "" || blankCode request.code then
    .ok { success := false, error := some "No Typst code provided" }
  else
    match env.writeInput with
    | .error e => .error e
    | .ok _ =>
      match env.stderrText with
      | .error e => .error e
      | .ok stderr =>
        match env.exitCode with
        | .error e => .error e
        | .ok exit =>
          if exit ≠ 0 then
            .ok { success := false,
                  error := some (if stderr ≠ "" then stderr
                                 else "Typst exited with code " ++ toString exit) }
          else if request.format = .png ∨ request.format = .svg then
            match env.readDir with
            | .error e => .error e
            | .ok files =>
              let ext := request.format.str
              let pageFiles := sortPages ext (matchingPageFiles id ext files)
              match readPages env request.format pageFiles with
              | .error e => .error e
              | .ok pages =>
                match env.unlinkFile inputPath with
                | .error e => .error e
                | .ok _ =>
                  .ok { success := true, pages := some pages,
                        mimeType := some (mimeOf request.format) }
          else
            let actualOutputPath := pathJoin (tempDirOf env) (id ++ "." ++ request.format.str)
            match env.readFileB64 actualOutputPath with
            | .error e => .error e
            | .ok b64 =>
              match env.unlinkFile inputPath with
              | .error e => .error e
              | .ok _ =>
                match env.unlinkFile actualOutputPath with
                | .error e => .error e
                | .ok _ =>
                  .ok { success := true, data := some b64,
                        mimeType := some (mimeOf request.format) }

/-- `renderTypst`.  `await ensureTempDir()` runs before the `try` block, so an
exception there propagates to the caller (result `.error e`); every exception
raised inside the body is caught and turned into
`{ success: false, error: <message> }`. -/
def renderTypst (env : RenderEnv) (request : TypstRenderRequest) : Except String TypstRenderResponse :=
  match env.mkdirTemp with
  | .error e => .error e
  | .ok _ =>
    match renderBody env request with
    | .ok r => .ok r
    | .error e => .ok { success := false, error := some e }

/-! ## Turn Engine: `handleChatStream` from `src/server/index.ts`

The engine is embedded as a pure function.  External collaborators are
oracles: `render` is the Render Collaborator (`renderTypst`'s
interface-level behaviour), `parse` is the runtime `JSON.parse` cast to the
tool input schema (`.error e` models a thrown `SyntaxError` with message
`e`).  The two model-backend streams are given as the event lists the
backend delivers.  The engine's observable behaviour is its ordered trace of
`Act`s: wire frames enqueued, `logMessage` appends, the
`updateConversationTypst` record update and the render requests issued. -/

/-- The tool input schema `{ code: string, description: string }`. -/
structure ToolInput where
  code : String
  description : String
deriving DecidableEq, Repr

/-- `TypstOutput` from `src/types/index.ts`. -/
structure TypstOutput where
  code : String
  pages : Option (List String) := none
  pdfUrl : Option String := none
  error : Option String := none
deriving DecidableEq, Repr

/-- Events of a model backend stream, as consumed by the engine's loop. -/
inductive MEvent where
  | blockStartText
  | blockStartToolUse (bid bname : String)
  | textDelta (t : String)
  | inputJsonDelta (j : String)
  | blockStop
  | messageStop
deriving DecidableEq, Repr

/-- Wire frames sent by `send(event, data)`, one constructor per event kind
with the payload fields of the corresponding object literal. -/
inductive Frame where
  | conversationId (cid : String)
  | text (t : String)
  | toolStart (tool : String) (tid : String)
  | toolInputReady (tool : String) (input : ToolInput)
  | toolExecuting (tool : String)
  | toolResult (tool : String) (success : Bool) (output : Option TypstOutput)
      (errMsg : Option String) (code : Option String)
  | assistantContinue
  | done (message : String)
  | error (message : String)
deriving DecidableEq, Repr

/-- The payload of the final `logMessage(conversationId, "assistant", ...)`. -/
structure AssistantLog where
  message : String
  hasTypstOutput : Bool
  typstCode : Option String
  typstError : Option String
deriving DecidableEq, Repr

/-- Transcript-store appends (`logMessage`), one constructor per `source`. -/
inductive LogPayload where
  | user (content : String)
  | toolCall (tool : String) (input : ToolInput)
  | toolResult (tool : String) (success : Bool) (pageCount : Option Nat) (errMsg : Option String)
  | assistant (a : AssistantLog)
deriving DecidableEq, Repr

/-- One observable step of the engine. -/
inductive Act where
  | frame (f : Frame)
  | log (p : LogPayload)
  | dbTypst (code : String) (pages : List String)
  | render (req : TypstRenderRequest)
deriving DecidableEq, Repr

/-- The mutable turn state shared across the stream callbacks. -/
structure TurnState where
  currentText : String := ""
  toolUseId : String := ""
  toolName : String := ""
  toolInput : String := ""
  typstOutput : Option TypstOutput := none
deriving DecidableEq, Repr

/-- The parse step at block close: `JSON.parse(toolInput)` with the
`catch` substituting the sentinel `{ code: "", description: "" }`. -/
def parsedInput (parse : String → Except String ToolInput) (buf : String) : ToolInput :=
  match parse buf with
  | .ok i => i
  | .error _ => { code := "", description := "" }

/-- The tool-execution step at `content_block_stop` (lines 142–209 of the
server): parse the buffered input, log the `tool_call`, emit `tool_input`
and `tool_executing`, render PNG, log the `tool_result`, then on success
update the conversation record and render the PDF variant before emitting
`tool_result`; on failure emit `tool_result` with the error.  Finally reset
`toolName`/`toolInput`. -/
def execTool (render : TypstRenderRequest → TypstRenderResponse)
    (parse : String → Except String ToolInput) (st : TurnState) : TurnState × List Act :=
  let input := parsedInput parse st.toolInput
  let r := render { code := input.code, format := .png }
  let pre : List Act :=
    [ .log (.toolCall st.toolName input),
      .frame (.toolInputReady st.toolName input),
      .frame (.toolExecuting st.toolName),
      .render { code := input.code, format := .png },
      .log (.toolResult st.toolName r.success (r.pages.map List.length) r.error) ]
  if r.success && r.pages.isSome then
    let ps := r.pages.getD []
    let pages := ps.map (fun p => "data:image/png;base64," ++ p)
    let pr := render { code := input.code, format := .pdf }
    let out : TypstOutput :=
      { code := input.code, pages := some pages,
        pdfUrl := match pr.data with
          | some d => if pr.success then some ("data:application/pdf;base64," ++ d) else none
          | none => none,
        error := none }
    ({ st with typstOutput := some out, toolName := "", toolInput := "" },
     pre ++ [ .dbTypst input.code pages,
              .render { code := input.code, format := .pdf },
              .frame (.toolResult st.toolName true (some out) none none) ])
  else
    let out : TypstOutput := { code := input.code, error := r.error }
    ({ st with typstOutput := some out, toolName := "", toolInput := "" },
     pre ++ [ .frame (.toolResult st.toolName false none r.error (some input.code)) ])

/-- One iteration of the first-call event loop. -/
def step (render : TypstRenderRequest → TypstRenderResponse)
    (parse : String → Except String ToolInput) (st : TurnState) : MEvent → TurnState × List Act
  | .blockStartText => (st, [])
  | .blockStartToolUse bid bname =>
    ({ st with toolUseId := bid, toolName := bname, toolInput := "" },
     [.frame (.toolStart bname bid)])
  | .textDelta t =>
    ({ st with currentText := st.currentText ++ t }, [.frame (.text t)])
  | .inputJsonDelta j =>
    ({ st with toolInput := st.toolInput ++ j }, [])
  | .blockStop =>
    if st.toolName != "" && st.toolInput != "" then execTool render parse st else (st, [])
  | .messageStop => (st, [])

/-- The first-call event loop. -/
def runEvents (render : TypstRenderRequest → TypstRenderResponse)
    (parse : String → Except String ToolInput) (st : TurnState) :
    List MEvent → TurnState × List Act
  | [] => (st, [])
  | e :: es =>
    let p1 := step render parse st e
    let p2 := runEvents render parse p1.1 es
    (p2.1, p1.2 ++ p2.2)

/-- The continuation-call loop: only `text_delta` events are handled. -/
def runCont (st : TurnState) : List MEvent → TurnState × List Act
  | [] => (st, [])
  | .textDelta t :: es =>
    let p := runCont { st with currentText := st.currentText ++ t } es
    (p.1, .frame (.text t) :: p.2)
  | _ :: es => runCont st es

/-- The continuation request builds `JSON.parse(toolInput || "{}")`: with the
buffer reset to `""` the literal `"{}"` always parses; a nonempty leftover
buffer that fails to parse throws, which the outer `catch` turns into an
`error` frame.  Returns the thrown message, if any. -/
def contThrow (parse : String → Except String ToolInput) (st : TurnState) : Option String :=
  if st.toolInput == "" then none
  else
    match parse st.toolInput with
    | .ok _ => none
    | .error e => some e

/-- The final `logMessage(..., "assistant", ...)` followed by `send("done")`. -/
def finalize (st : TurnState) : List Act :=
  [ .log (.assistant
      { message := st.currentText,
        hasTypstOutput := st.typstOutput.isSome,
        typstCode := st.typstOutput.map TypstOutput.code,
        typstError := st.typstOutput.bind TypstOutput.error }),
    .frame (.done st.currentText) ]

/-- `handleChatStream`: log the user message, send `conversation_id`, run the
first model stream, then — iff a tool-use block started (`toolUseId`) and a
tool executed (`typstOutput`) — send `assistant_continue` and run the
continuation stream, and finally log the assistant entry and send `done`.
A `JSON.parse` throw while building the continuation request is caught by
the outer handler: an `error` frame is sent and nothing more happens. -/
def handleChatStream (render : TypstRenderRequest → TypstRenderResponse)
    (parse : String → Except String ToolInput) (conversationId : String)
    (lastUserMessage : Option String) (events contEvents : List MEvent) : List Act :=
  let userLog : List Act :=
    match lastUserMessage with
    | some m => [.log (.user m)]
    | none => []
  let p1 := runEvents render parse {} events
  let tail : List Act :=
    if p1.1.toolUseId != "" && p1.1.typstOutput.isSome then
      match contThrow parse p1.1 with
      | some e => [.frame .assistantContinue, .frame (.error e)]
      | none =>
        let p2 := runCont p1.1 contEvents
        .frame .assistantContinue :: p2.2 ++ finalize p2.1
    else finalize p1.1
  userLog ++ .frame (.conversationId conversationId) :: p1.2 ++ tail

/-! ### Trace projections -/

/-- The wire frames of a trace, in emission order. -/
def framesOf (tr : List Act) : List Frame :=
  tr.filterMap fun a => match a with | .frame f => some f | _ => none

/-- The transcript-store appends of a trace, in order. -/
def logsOf (tr : List Act) : List LogPayload :=
  tr.filterMap fun a => match a with | .log p => some p | _ => none

/-- The persisted `assistant` entries of a trace. -/
def assistantLogsOf (tr : List Act) : List AssistantLog :=
  tr.filterMap fun a => match a with | .log (.assistant p) => some p | _ => none

/-- The persisted `tool_call` entries of a trace. -/
def toolCallLogsOf (tr : List Act) : List (String × ToolInput) :=
  tr.filterMap fun a => match a with | .log (.toolCall t i) => some (t, i) | _ => none

/-- The persisted `tool_result` entries of a trace. -/
def toolResultLogsOf (tr : List Act) : List (String × Bool × Option Nat × Option String) :=
  tr.filterMap fun a => match a with | .log (.toolResult t s n e) => some (t, s, n, e) | _ => none

/-- The last `updateConversationTypst` update of a trace: the conversation
record's stored `typst_code` and `typst_pages` after the turn. -/
def lastDbTypst (tr : List Act) : Option (String × List String) :=
  (tr.filterMap fun a => match a with | .dbTypst c p => some (c, p) | _ => none).getLast?

/-- Concatenation, in call order, of the `text_delta` payloads of a stream. -/
def concatTexts : List MEvent → String
  | [] => ""
  | .textDelta t :: es => t ++ concatTexts es
  | _ :: es => concatTexts es

/-- Terminal frames: `done` or `error`. -/
def isTermFrame : Frame → Bool
  | .done _ => true
  | .error _ => true
  | _ => false

/-- Frames delivered to a client that aborts after `k` frames: the engine
keeps running (its `send` swallows enqueue failures on a cancelled stream),
so an abort truncates delivery but not the trace. -/
def deliveredFrames (k : Nat) (tr : List Act) : List Frame := (framesOf tr).take k

/-! ## Session Replay Builder: `loadConversation` in `src/components/ChatSidebar.tsx`

The builder turns the ordered DB rows of a conversation into UI messages.
A row's `content` is the JSON payload the server logged; the embedding keeps
it structured (serialize/parse round-trip), with exactly the fields the
builder reads. -/

/-- UI tool-call status (`ToolCallInfo.status`). -/
inductive UiStatus where
  | calling
  | executing
  | success
  | error
deriving DecidableEq, Repr

/-- `ToolCallInfo` from `src/types/index.ts`. -/
structure UiToolCall where
  name : String
  status : UiStatus
  input : Option ToolInput := none
  errMsg : Option String := none
deriving DecidableEq, Repr

/-- UI message role. -/
inductive UiRole where
  | user
  | assistant
  | tool
deriving DecidableEq, Repr

/-- A UI message built by the replay loop. -/
structure UiMessage where
  mid : Nat
  role : UiRole
  content : String
  timestamp : Nat
  toolCall : Option UiToolCall := none
deriving DecidableEq, Repr

/-- The parsed `content` of a DB row, by `source`; only the fields the
builder reads are modelled. -/
inductive DbContent where
  | user (content : String)
  | toolCall (tool : String) (input : ToolInput)
  | toolResult (success : Bool) (errMsg : Option String)
  | assistant (message : String)
deriving DecidableEq, Repr

/-- A DB `messages` row as the builder sees it. -/
structure DbMessage where
  mid : Nat
  timestamp : Nat
  content : DbContent
deriving DecidableEq, Repr

/-- `m.role === "tool"`. -/
def isToolMsg (m : UiMessage) : Bool := m.role = UiRole.tool

/-- The spread-update the builder applies at `uiMessages[lastToolIdx]`:
overwrite the status from the outcome's success flag and copy its error.
(The builder's `toolCall!` assumes the field is present; every tool message
it creates has it, and a missing one is left unchanged here.) -/
def applyOutcome (succ : Bool) (err : Option String) (m : UiMessage) : UiMessage :=
  { m with toolCall := match m.toolCall with
      | some tc => some { tc with status := if succ then .success else .error, errMsg := err }
      | none => none }

/-- `findLastIndex((m) => m.role === "tool")` followed by the in-place
update: rewrite the LAST tool-role message (resolved or not); if there is
none (`lastToolIdx === -1`) the list is unchanged. -/
def updateLastTool (succ : Bool) (err : Option String) : List UiMessage → List UiMessage
  | [] => []
  | m :: ms =>
    if ms.any isToolMsg then m :: updateLastTool succ err ms
    else if isToolMsg m then applyOutcome succ err m :: ms
    else m :: ms

/-- One iteration of the builder's `for (const msg of data.messages)` loop. -/
def buildStep (ms : List UiMessage) (msg : DbMessage) : List UiMessage :=
  match msg.content with
  | .user c =>
    ms ++ [{ mid := msg.mid, role := .user, content := c, timestamp := msg.timestamp }]
  | .toolCall tool input =>
    ms ++ [{ mid := msg.mid, role := .tool, content := "", timestamp := msg.timestamp,
             toolCall := some { name := tool, status := .calling, input := some input } }]
  | .toolResult succ err => updateLastTool succ err ms
  | .assistant m =>
    ms ++ [{ mid := msg.mid, role := .assistant, content := m, timestamp := msg.timestamp }]

/-- The replay builder: fold the rows in order into UI messages. -/
def buildMessages (rows : List DbMessage) : List UiMessage :=
  rows.foldl buildStep []

/-! ## Event Encoder: `send(event, data)` and `JSON.stringify`

`send` enqueues the single frame
`event: <kind>\ndata: <json>\n\n`.  The JSON payload is produced by
`JSON.stringify` with no spacing argument: structural characters only, and
every control character inside a string escaped (`\n`, `\r`, `\uXXXX`, ...),
so the serialized payload is a single line. -/

/-- JSON values as passed to `JSON.stringify`. -/
inductive JVal where
  | jnull
  | jbool (b : Bool)
  | jnum (n : Int)
  | jstr (s : String)
  | jarr (elems : List JVal)
  | jobj (fields : List (String × JVal))
deriving Repr

/-- Decimal digits of a natural number. -/
def natDigits (n : Nat) : List Char :=
  if h : n < 10 then [Char.ofNat (48 + n)]
  else natDigits (n / 10) ++ [Char.ofNat (48 + n % 10)]
decreasing_by exact Nat.div_lt_self (by omega) (by omega)

/-- Decimal representation of an integer. -/
def intChars (n : Int) : List Char :=
  if n < 0 then '-' :: natDigits n.natAbs else natDigits n.natAbs

/-- Lower-case hexadecimal digit. -/
def hexDigit (d : Nat) : Char :=
  if d < 10 then Char.ofNat (48 + d) else Char.ofNat (87 + d)

/-- `JSON.stringify` string escaping (QuoteJSONString): `"` and `\` are
backslash-escaped, the named control characters get two-character escapes,
any other control character becomes `\u00XX`, and everything else is passed
through. -/
def escChar (c : Char) : List Char :=
  if c = '"' then ['\\', '"']
  else if c = '\\' then ['\\', '\\']
  else if c = Char.ofNat 8 then ['\\', 'b']
  else if c = '\t' then ['\\', 't']
  else if c = '\n' then ['\\', 'n']
  else if c = Char.ofNat 12 then ['\\', 'f']
  else if c = '\r' then ['\\', 'r']
  else if c.toNat < 32 then ['\\', 'u', '0', '0', hexDigit (c.toNat / 16), hexDigit (c.toNat % 16)]
  else [c]

/-- Serialized JSON string literal. -/
def strChars (s : String) : List Char := '"' :: (s.toList.map escChar).flatten ++ ['"']

mutual

/-- `JSON.stringify` with no spacing argument. -/
def serialize : JVal → List Char
  | .jnull => "null".toList
  | .jbool true => "true".toList
  | .jbool false => "false".toList
  | .jnum n => intChars n
  | .jstr s => strChars s
  | .jarr xs => '[' :: serializeElems xs ++ [']']
  | .jobj fs => Char.ofNat 123 :: serializeFields fs ++ [Char.ofNat 125]

/-- Comma-separated array elements. -/
def serializeElems : List JVal → List Char
  | [] => []
  | [x] => serialize x
  | x :: y :: xs => serialize x ++ ',' :: serializeElems (y :: xs)

/-- Comma-separated `"key":value` members. -/
def serializeFields : List (String × JVal) → List Char
  | [] => []
  | [(k, v)] => strChars k ++ ':' :: serialize v
  | (k, v) :: f :: fs => (strChars k ++ ':' :: serialize v) ++ ',' :: serializeFields (f :: fs)

end

/-- The nine wire event kinds. -/
inductive FrameKind where
  | conversation_id
  | text
  | tool_start
  | tool_input
  | tool_executing
  | tool_result
  | assistant_continue
  | done
  | error
deriving DecidableEq, Repr

/-- The kind tag written after `event: `. -/
def kindChars (k : FrameKind) : List Char :=
  (match k with
   | .conversation_id => "conversation_id"
   | .text => "text"
   | .tool_start => "tool_start"
   | .tool_input => "tool_input"
   | .tool_executing => "tool_executing"
   | .tool_result => "tool_result"
   | .assistant_continue => "assistant_continue"
   | .done => "done"
   | .error => "error").toList

/-- The single frame `send` enqueues:
`event: <kind>\ndata: <json>\n\n`. -/
def encodeFrame (k : FrameKind) (v : JVal) : List Char :=
  "event: ".toList ++ kindChars k ++ '\n' :: "data: ".toList ++ serialize v ++ ['\n', '\n']

/-- JSON payload of a `TypstOutput` (absent optional fields omitted, as
`JSON.stringify` drops `undefined` properties). -/
def typstOutputJson (o : TypstOutput) : JVal :=
  .jobj ([("code", .jstr o.code)]
    ++ (match o.pages with | some ps => [("pages", .jarr (ps.map .jstr))] | none => [])
    ++ (match o.pdfUrl with | some u => [("pdfUrl", .jstr u)] | none => [])
    ++ (match o.error with | some e => [("error", .jstr e)] | none => []))

/-- The event kind of each engine frame. -/
def frameKindOf : Frame → FrameKind
  | .conversationId _ => .conversation_id
  | .text _ => .text
  | .toolStart _ _ => .tool_start
  | .toolInputReady _ _ => .tool_input
  | .toolExecuting _ => .tool_executing
  | .toolResult _ _ _ _ _ => .tool_result
  | .assistantContinue => .assistant_continue
  | .done _ => .done
  | .error _ => .error

/-- The JSON payload of each engine frame (the object literal passed to
`send`, with `undefined` properties omitted). -/
def frameDataOf : Frame → JVal
  | .conversationId cid => .jobj [("conversationId", .jstr cid)]
  | .text t => .jobj [("text", .jstr t)]
  | .toolStart tool tid => .jobj [("tool", .jstr tool), ("id", .jstr tid)]
  | .toolInputReady tool input =>
    .jobj [("tool", .jstr tool),
           ("input", .jobj [("code", .jstr input.code), ("description", .jstr input.description)])]
  | .toolExecuting tool => .jobj [("tool", .jstr tool)]
  | .toolResult tool succ output err code =>
    .jobj ([("tool", .jstr tool), ("success", .jbool succ)]
      ++ (match output with | some o => [("output", typstOutputJson o)] | none => [])
      ++ (match err with | some e => [("error", .jstr e)] | none => [])
      ++ (match code with | some c => [("code", .jstr c)] | none => []))
  | .assistantContinue => .jobj []
  | .done m => .jobj [("message", .jstr m)]
  | .error m => .jobj [("error", .jstr m)]

/-- The wire bytes of one engine frame. -/
def wireOf (f : Frame) : List Char := encodeFrame (frameKindOf f) (frameDataOf f)

/-! ## Lemmas about the renderer -/

/-- Every normal return of the `try` body is either a success or carries an
error message. -/
theorem renderBody_ok_shape (env : RenderEnv) (req : TypstRenderRequest) :
    ∀ r, renderBody env req = .ok r → r.success = true ∨ r.error.isSome = true := by
  intro r h
  unfold renderBody at h
  dsimp only at h
  iterate 12 (all_goals try split at h)
  all_goals try cases h
  all_goals simp

/-- A successful `renderTypst` result comes from the `try` body (the catch
branch always reports failure). -/
theorem renderTypst_ok_success (env : RenderEnv) (req : TypstRenderRequest)
    (r : TypstRenderResponse) (h : renderTypst env req = .ok r) (hs : r.success = true) :
    renderBody env req = .ok r := by
  unfold renderTypst at h
  cases hmk : env.mkdirTemp with
  | error e => rw [hmk] at h; cases h
  | ok _ =>
    rw [hmk] at h
    cases hb : renderBody env req with
    | ok r2 => rw [hb] at h; cases h; rfl
    | error e => rw [hb] at h; cases h; simp at hs

/-- Successful multi-page renders read the filtered, numerically sorted page
files. -/
theorem renderBody_multi (env : RenderEnv) (req : TypstRenderRequest)
    (hfmt : req.format = .png ∨ req.format = .svg) (r : TypstRenderResponse)
    (hok : renderBody env req = .ok r) (hs : r.success = true) :
    ∃ files pages,
      env.readDir = .ok files ∧
      readPages env req.format
        (sortPages req.format.str (matchingPageFiles env.uuid req.format.str files)) = .ok pages ∧
      r = { success := true, pages := some pages, mimeType := some (mimeOf req.format) } := by
  unfold renderBody at hok
  dsimp only at hok
  iterate 12 (all_goals try split at hok)
  all_goals try cases hok
  all_goals simp_all

/-- Successful single-file (PDF) renders return one encoded blob and no
pages. -/
theorem renderBody_pdf (env : RenderEnv) (req : TypstRenderRequest)
    (hfmt : req.format = .pdf) (r : TypstRenderResponse)
    (hok : renderBody env req = .ok r) (hs : r.success = true) :
    ∃ b64, r = { success := true, data := some b64, mimeType := some (mimeOf req.format) } := by
  unfold renderBody at hok
  dsimp only at hok
  iterate 12 (all_goals try split at hok)
  all_goals try cases hok
  all_goals simp_all

/-- `insertSorted` adds one element. -/
theorem length_insertSorted (le : String → String → Bool) (x : String) :
    ∀ l, (insertSorted le x l).length = l.length + 1 := by
  intro l
  induction l with
  | nil => rfl
  | cons y ys ih => simp only [insertSorted]; split <;> simp [ih]

/-- Sorting preserves the number of page files. -/
theorem length_sortPages (ext : String) : ∀ l, (sortPages ext l).length = l.length := by
  intro l
  induction l with
  | nil => rfl
  | cons x xs ih => simp [sortPages, length_insertSorted, ih]

/-- Membership in an insertion. -/
theorem mem_insertSorted (le : String → String → Bool) (x : String) :
    ∀ l z, z ∈ insertSorted le x l ↔ z = x ∨ z ∈ l := by
  intro l
  induction l with
  | nil => intro z; simp [insertSorted]
  | cons y ys ih =>
    intro z
    simp only [insertSorted]
    split
    · simp only [List.mem_cons, ih]
      tauto
    · simp only [List.mem_cons]

/-- Inserting into a list sorted by the numeric suffix keeps it sorted. -/
theorem pairwise_insertSorted (ext : String) (x : String) :
    ∀ l, List.Pairwise (fun a b => suffixNum ext a ≤ suffixNum ext b) l →
      List.Pairwise (fun a b => suffixNum ext a ≤ suffixNum ext b)
        (insertSorted (leKey ext) x l) := by
  intro l
  induction l with
  | nil => intro _; simp [insertSorted]
  | cons y ys ih =>
    intro h
    rw [List.pairwise_cons] at h
    simp only [insertSorted]
    split
    · rename_i hle
      have hyx : suffixNum ext y ≤ suffixNum ext x := by
        simpa [leKey] using hle
      rw [List.pairwise_cons]
      constructor
      · intro z hz
        rcases (mem_insertSorted (leKey ext) x ys z).1 hz with rfl | hz
        · exact hyx
        · exact h.1 z hz
      · exact ih h.2
    · rename_i hle
      have hxy : suffixNum ext x ≤ suffixNum ext y := by
        have : ¬ suffixNum ext y ≤ suffixNum ext x := by
          simpa [leKey] using hle
        omega
      rw [List.pairwise_cons]
      constructor
      · intro z hz
        rcases List.mem_cons.1 hz with rfl | hz
        · exact hxy
        · exact le_trans hxy (h.1 z hz)
      · rw [List.pairwise_cons]; exact ⟨h.1, h.2⟩

/-- `sortPages` sorts by the numeric filename suffix. -/
theorem pairwise_sortPages (ext : String) :
    ∀ l, List.Pairwise (fun a b => suffixNum ext a ≤ suffixNum ext b) (sortPages ext l) := by
  intro l
  induction l with
  | nil => simp [sortPages]
  | cons x xs ih => exact pairwise_insertSorted ext x _ ih

/-- The page-reading loop yields one entry per page file. -/
theorem length_readPages (env : RenderEnv) (fmt : Format) :
    ∀ fs ps, readPages env fmt fs = .ok ps → ps.length = fs.length := by
  intro fs
  induction fs with
  | nil => intro ps h; cases h; rfl
  | cons f fs ih =>
    intro ps h
    unfold readPages at h
    dsimp only at h
    iterate 8 (all_goals try split at h)
    all_goals try cases h
    all_goals simp [ih _ (by assumption)]

/-! ## Claims about the renderer (C5, C9) -/

/-- Claim C5: for every successful render request with format png or svg,
`renderTypst` returns a pages array with one entry per generated page file,
read in the order given by sorting the generated per-page filenames by their
numeric suffix; for format pdf it returns a single encoded blob in `data`
and no pages array. -/
theorem spec_c5 (env : RenderEnv) (req : TypstRenderRequest) (r : TypstRenderResponse)
    (hok : renderTypst env req = .ok r) (hs : r.success = true) :
    ((req.format = .png ∨ req.format = .svg) →
      ∃ files pages,
        env.readDir = .ok files ∧
        readPages env req.format
          (sortPages req.format.str (matchingPageFiles env.uuid req.format.str files)) = .ok pages ∧
        r.pages = some pages ∧ r.data = none ∧
        pages.length = (matchingPageFiles env.uuid req.format.str files).length ∧
        List.Pairwise (fun a b => suffixNum req.format.str a ≤ suffixNum req.format.str b)
          (sortPages req.format.str (matchingPageFiles env.uuid req.format.str files)))
    ∧ (req.format = .pdf → r.pages = none ∧ ∃ d, r.data = some d) := by
  have hbody := renderTypst_ok_success env req r hok hs
  constructor
  · intro hfmt
    obtain ⟨files, pages, h1, h2, h3⟩ := renderBody_multi env req hfmt r hbody hs
    refine ⟨files, pages, h1, h2, ?_, ?_, ?_, ?_⟩
    · rw [h3]
    · rw [h3]
    · have hl := length_readPages env req.format _ _ h2
      rw [hl, length_sortPages]
    · exact pairwise_sortPages _ _
  · intro hfmt
    obtain ⟨b64, h3⟩ := renderBody_pdf env req hfmt r hbody hs
    exact ⟨by rw [h3], b64, by rw [h3]⟩

/-- A render environment in which every effect succeeds: the compiler exits
with code 0 and leaves three matching page files, listed out of numeric
order (and one unrelated file). -/
def envPages : RenderEnv :=
  { tmpdir := "/tmp", mkdirTemp := .ok (), uuid := "job",
    writeInput := .ok (), stderrText := .ok "", exitCode := .ok 0,
    readDir := .ok ["job-10.png", "job-2.png", "other.txt", "job-1.png"],
    readFileText := fun p => .ok ("text:" ++ p),
    readFileB64 := fun p => .ok ("b64:" ++ p),
    unlinkFile := fun _ => .ok () }

/-- The request used by the witnesses. -/
def reqPages : TypstRenderRequest := { code := "= Doc", format := .png }

/-- The response `renderTypst` computes in `envPages`: pages in numeric
order 1, 2, 10 (not lexicographic order 1, 10, 2). -/
def respPages : TypstRenderResponse :=
  { success := true,
    pages := some ["b64:/tmp/typstai/job-1.png", "b64:/tmp/typstai/job-2.png",
                   "b64:/tmp/typstai/job-10.png"],
    mimeType := some "image/png" }

/-- Witness for C5 at a concrete environment with out-of-order page files. -/
theorem spec_c5_witness :
    renderTypst envPages reqPages = .ok respPages ∧ respPages.success = true ∧
    (∃ files pages,
        envPages.readDir = .ok files ∧
        readPages envPages reqPages.format
          (sortPages reqPages.format.str
            (matchingPageFiles envPages.uuid reqPages.format.str files)) = .ok pages ∧
        respPages.pages = some pages ∧ respPages.data = none ∧
        pages.length = (matchingPageFiles envPages.uuid reqPages.format.str files).length ∧
        List.Pairwise (fun a b => suffixNum reqPages.format.str a ≤ suffixNum reqPages.format.str b)
          (sortPages reqPages.format.str
            (matchingPageFiles envPages.uuid reqPages.format.str files))) :=
  ⟨rfl, rfl, (spec_c5 envPages reqPages respPages rfl rfl).1 (Or.inl rfl)⟩

/-- The same environment with the initial temp-directory creation failing. -/
def envMkdirFail : RenderEnv :=
  { envPages with mkdirTemp := .error "EACCES: permission denied, mkdir" }

/-- Counterexample to C9 as stated: `await ensureTempDir()` runs before the
`try` block, so a file-system failure there escapes `renderTypst` as an
exception instead of a `{ success: false }` response. -/
theorem spec_c9_cex :
    renderTypst envMkdirFail reqPages = .error "EACCES: permission denied, mkdir" := rfl

/-- Claim C9, amended: once the initial temp-directory creation succeeds,
`renderTypst` always returns a response — empty/blank code, a non-zero
compiler exit and every file-system or spawn exception inside the `try`
body are returned as `{ success: false, error: <message> }`. -/
theorem spec_c9 (env : RenderEnv) (req : TypstRenderRequest) (hmk : env.mkdirTemp = .ok ()) :
    ∃ r, renderTypst env req = .ok r ∧
      (r.success = true ∨ (r.success = false ∧ r.error.isSome = true)) ∧
      (blankCode req.code = true →
        r = { success := false, error := some "No Typst code provided" }) := by
  unfold renderTypst
  rw [hmk]
  cases hb : renderBody env req with
  | ok r =>
    refine ⟨r, rfl, ?_, ?_⟩
    · rcases renderBody_ok_shape env req r hb with h | h
      · exact Or.inl h
      · by_cases hsucc : r.success = true
        · exact Or.inl hsucc
        · exact Or.inr ⟨by simpa using hsucc, h⟩
    · intro hblank
      unfold renderBody at hb
      simp [hblank] at hb
      exact hb.symm
  | error e =>
    refine ⟨_, rfl, Or.inr ⟨rfl, rfl⟩, ?_⟩
    intro hblank
    exfalso
    unfold renderBody at hb
    simp [hblank] at hb

/-- Witness for the amended C9: blank code in a healthy environment yields
the `No Typst code provided` failure response, not an exception. -/
theorem spec_c9_witness :
    envPages.mkdirTemp = .ok () ∧
    ∃ r, renderTypst envPages { code := " ", format := .pdf } = .ok r ∧
      (r.success = true ∨ (r.success = false ∧ r.error.isSome = true)) ∧
      (blankCode (" " : String) = true →
        r = { success := false, error := some "No Typst code provided" }) :=
  ⟨rfl, spec_c9 envPages { code := " ", format := .pdf } rfl⟩

/-! ## Lemmas about the Turn Engine -/

/-- Acts that are `done` or `error` frames. -/
def isTermAct : Act → Bool
  | .frame f => isTermFrame f
  | _ => false

/-- Acts that are persisted `assistant` entries. -/
def isAssistAct : Act → Bool
  | .log (.assistant _) => true
  | _ => false

/-- Acts that are conversation-record updates. -/
def isDbAct : Act → Bool
  | .dbTypst _ _ => true
  | _ => false

/-- Acts that are `text` frames. -/
def isTextAct : Act → Bool
  | .frame (.text _) => true
  | _ => false

/-- The conversation-record updates of a trace. -/
def dbLogsOf (tr : List Act) : List (String × List String) :=
  tr.filterMap fun a => match a with | .dbTypst c p => some (c, p) | _ => none

theorem toolCallLogsOf_append (A B : List Act) :
    toolCallLogsOf (A ++ B) = toolCallLogsOf A ++ toolCallLogsOf B :=
  List.filterMap_append A B _

theorem assistantLogsOf_append (A B : List Act) :
    assistantLogsOf (A ++ B) = assistantLogsOf A ++ assistantLogsOf B :=
  List.filterMap_append A B _

theorem framesOf_append (A B : List Act) :
    framesOf (A ++ B) = framesOf A ++ framesOf B :=
  List.filterMap_append A B _

theorem dbLogsOf_append (A B : List Act) :
    dbLogsOf (A ++ B) = dbLogsOf A ++ dbLogsOf B :=
  List.filterMap_append A B _

theorem lastDbTypst_eq (tr : List Act) : lastDbTypst tr = (dbLogsOf tr).getLast? := rfl

theorem toolCallLogsOf_nil : toolCallLogsOf [] = [] := rfl

theorem toolCallLogsOf_frame_cons (f : Frame) (tr : List Act) :
    toolCallLogsOf (.frame f :: tr) = toolCallLogsOf tr := by simp [toolCallLogsOf]

theorem dbLogsOf_frame_cons (f : Frame) (tr : List Act) :
    dbLogsOf (.frame f :: tr) = dbLogsOf tr := by simp [dbLogsOf]

theorem assistantLogsOf_frame_cons (f : Frame) (tr : List Act) :
    assistantLogsOf (.frame f :: tr) = assistantLogsOf tr := by simp [assistantLogsOf]

theorem framesOf_frame_cons (f : Frame) (tr : List Act) :
    framesOf (.frame f :: tr) = f :: framesOf tr := by simp [framesOf]

/-- `execTool` does not touch the text accumulator. -/
theorem execTool_currentText (render : TypstRenderRequest → TypstRenderResponse)
    (parse : String → Except String ToolInput) (st : TurnState) :
    (execTool render parse st).1.currentText = st.currentText := by
  unfold execTool; dsimp only; split <;> rfl

/-- `execTool` does not touch `toolUseId`. -/
theorem execTool_toolUseId (render : TypstRenderRequest → TypstRenderResponse)
    (parse : String → Except String ToolInput) (st : TurnState) :
    (execTool render parse st).1.toolUseId = st.toolUseId := by
  unfold execTool; dsimp only; split <;> rfl

/-- `execTool` resets the input buffer. -/
theorem execTool_toolInput (render : TypstRenderRequest → TypstRenderResponse)
    (parse : String → Except String ToolInput) (st : TurnState) :
    (execTool render parse st).1.toolInput = "" := by
  unfold execTool; dsimp only; split <;> rfl

/-- `execTool` always records a tool outcome in `typstOutput`. -/
theorem execTool_isSome (render : TypstRenderRequest → TypstRenderResponse)
    (parse : String → Except String ToolInput) (st : TurnState) :
    (execTool render parse st).1.typstOutput.isSome = true := by
  unfold execTool; dsimp only; split <;> rfl

/-- `execTool` persists exactly one `tool_call` entry, carrying the parsed
(or sentinel) input. -/
theorem execTool_toolCalls (render : TypstRenderRequest → TypstRenderResponse)
    (parse : String → Except String ToolInput) (st : TurnState) :
    toolCallLogsOf (execTool render parse st).2 =
      [(st.toolName, parsedInput parse st.toolInput)] := by
  unfold execTool; dsimp only; split <;> simp [toolCallLogsOf]

/-- `execTool` emits no terminal frame and no assistant entry. -/
theorem execTool_clean (render : TypstRenderRequest → TypstRenderResponse)
    (parse : String → Except String ToolInput) (st : TurnState) :
    ((execTool render parse st).2.all fun a => !isTermAct a && !isAssistAct a) = true := by
  unfold execTool; dsimp only; split <;>
    simp [isTermAct, isAssistAct, isTermFrame]

/-- The success branch of `execTool`: the tool outcome keeps the rendered
pages, the conversation record is updated once with the input markup, and
the trace ends with the PDF render request immediately followed by the
`tool_result` success frame. -/
theorem execTool_success (render : TypstRenderRequest → TypstRenderResponse)
    (parse : String → Except String ToolInput) (st : TurnState) (ps : List String)
    (hsucc : (render { code := (parsedInput parse st.toolInput).code, format := .png }).success = true)
    (hpages : (render { code := (parsedInput parse st.toolInput).code, format := .png }).pages = some ps) :
    (execTool render parse st).1.typstOutput = some
        { code := (parsedInput parse st.toolInput).code,
          pages := some (ps.map (fun q => "data:image/png;base64," ++ q)),
          pdfUrl := match (render { code := (parsedInput parse st.toolInput).code, format := .pdf }).data with
            | some d =>
              if (render { code := (parsedInput parse st.toolInput).code, format := .pdf }).success
              then some ("data:application/pdf;base64," ++ d) else none
            | none => none,
          error := none } ∧
    dbLogsOf (execTool render parse st).2 =
      [((parsedInput parse st.toolInput).code,
        ps.map (fun q => "data:image/png;base64," ++ q))] := by
  unfold execTool
  dsimp only
  rw [hsucc, hpages]
  simp [dbLogsOf]

/-- The failure branch of `execTool`: the tool outcome records the input
markup and the renderer's error, and the conversation record is not
updated. -/
theorem execTool_failure (render : TypstRenderRequest → TypstRenderResponse)
    (parse : String → Except String ToolInput) (st : TurnState)
    (hfail : (render { code := (parsedInput parse st.toolInput).code, format := .png }).success = false) :
    (execTool render parse st).1.typstOutput = some
        { code := (parsedInput parse st.toolInput).code, pages := none, pdfUrl := none,
          error := (render { code := (parsedInput parse st.toolInput).code, format := .png }).error } ∧
    dbLogsOf (execTool render parse st).2 = [] := by
  unfold execTool
  dsimp only
  rw [hfail]
  simp [dbLogsOf]

/-- The accumulator after the first stream is the prior text followed by
every `text_delta`, in call order. -/
theorem runEvents_currentText (render : TypstRenderRequest → TypstRenderResponse)
    (parse : String → Except String ToolInput) :
    ∀ es st, (runEvents render parse st es).1.currentText = st.currentText ++ concatTexts es := by
  intro es
  induction es with
  | nil => intro st; simp [runEvents, concatTexts]
  | cons e es ih =>
    intro st
    cases e with
    | blockStartText => simpa [runEvents, step, concatTexts] using ih st
    | blockStartToolUse bid bname => simpa [runEvents, step, concatTexts] using ih _
    | textDelta t =>
      simp only [runEvents, step, concatTexts]
      rw [ih]
      simp [String.append_assoc]
    | inputJsonDelta j => simpa [runEvents, step, concatTexts] using ih _
    | blockStop =>
      simp only [runEvents, step, concatTexts]
      split
      · rw [ih, execTool_currentText]
      · rw [ih]
    | messageStop => simpa [runEvents, step, concatTexts] using ih _

/-- The first stream's loop emits no terminal frame and persists no
assistant entry. -/
theorem runEvents_clean (render : TypstRenderRequest → TypstRenderResponse)
    (parse : String → Except String ToolInput) :
    ∀ es st, ((runEvents render parse st es).2.all fun a => !isTermAct a && !isAssistAct a) = true := by
  intro es
  induction es with
  | nil => intro st; rfl
  | cons e es ih =>
    intro st
    cases e with
    | blockStop =>
      simp only [runEvents, step]
      split
      · rw [List.all_append]
        rw [Bool.and_eq_true]
        exact ⟨execTool_clean render parse st, ih _⟩
      · simpa using ih st
    | blockStartToolUse bid bname =>
      simp only [runEvents, step, List.all_append]
      simpa [isTermAct, isAssistAct, isTermFrame] using ih _
    | textDelta t =>
      simp only [runEvents, step, List.all_append]
      simpa [isTermAct, isAssistAct, isTermFrame] using ih _
    | blockStartText => simpa [runEvents, step] using ih st
    | inputJsonDelta j => simpa [runEvents, step] using ih _
    | messageStop => simpa [runEvents, step] using ih st

/-- If a run persists no `tool_call` entry, it neither changes the tool
outcome nor updates the conversation record. -/
theorem runEvents_no_toolCall (render : TypstRenderRequest → TypstRenderResponse)
    (parse : String → Except String ToolInput) :
    ∀ es st, toolCallLogsOf (runEvents render parse st es).2 = [] →
      (runEvents render parse st es).1.typstOutput = st.typstOutput ∧
      dbLogsOf (runEvents render parse st es).2 = [] := by
  intro es
  induction es with
  | nil => intro st _; exact ⟨rfl, rfl⟩
  | cons e es ih =>
    intro st h
    cases e with
    | blockStop =>
      simp only [runEvents, step] at h ⊢
      split at h
      · rw [toolCallLogsOf_append, execTool_toolCalls] at h
        simp at h
      · rename_i hc
        rw [if_neg hc]
        simpa using ih _ (by simpa using h)
    | blockStartText => exact ih st (by simpa [runEvents, step] using h)
    | blockStartToolUse bid bname =>
      have h2 : toolCallLogsOf
          (runEvents render parse
            { st with toolUseId := bid, toolName := bname, toolInput := "" } es).2 = [] := by
        simpa [runEvents, step, toolCallLogsOf] using h
      have h3 := ih _ h2
      simpa [runEvents, step, dbLogsOf, toolCallLogsOf] using h3
    | textDelta t =>
      have h2 : toolCallLogsOf
          (runEvents render parse { st with currentText := st.currentText ++ t } es).2 = [] := by
        simpa [runEvents, step, toolCallLogsOf] using h
      have h3 := ih _ h2
      simpa [runEvents, step, dbLogsOf, toolCallLogsOf] using h3
    | inputJsonDelta j => exact ih _ (by simpa [runEvents, step] using h)
    | messageStop => exact ih st (by simpa [runEvents, step] using h)

/-- A run with exactly one persisted `tool_call`, whose PNG render succeeds
with pages: the conversation record holds that invocation's markup and the
data-URL pages, and the tool outcome carries them. -/
theorem runEvents_single_success (render : TypstRenderRequest → TypstRenderResponse)
    (parse : String → Except String ToolInput) (t : String) (inp : ToolInput) (ps : List String)
    (hsucc : (render { code := inp.code, format := .png }).success = true)
    (hpages : (render { code := inp.code, format := .png }).pages = some ps) :
    ∀ es st, toolCallLogsOf (runEvents render parse st es).2 = [(t, inp)] →
      lastDbTypst (runEvents render parse st es).2 =
        some (inp.code, ps.map (fun q => "data:image/png;base64," ++ q)) ∧
      ∃ out, (runEvents render parse st es).1.typstOutput = some out ∧
        out.code = inp.code ∧
        out.pages = some (ps.map (fun q => "data:image/png;base64," ++ q)) ∧
        out.error = none := by
  intro es
  induction es with
  | nil => intro st h; simp [runEvents, toolCallLogsOf] at h
  | cons e es ih =>
    intro st h
    cases e with
    | blockStop =>
      simp only [runEvents, step] at h ⊢
      split at h
      · rename_i hc
        rw [if_pos hc]
        rw [toolCallLogsOf_append, execTool_toolCalls] at h
        simp only [List.singleton_append, List.cons.injEq, Prod.mk.injEq] at h
        obtain ⟨⟨hname, hinp⟩, hrest⟩ := h
        have hno := runEvents_no_toolCall render parse es _ hrest
        obtain ⟨hsucc2, hpages2⟩ :
            (render { code := (parsedInput parse st.toolInput).code, format := .png }).success = true ∧
            (render { code := (parsedInput parse st.toolInput).code, format := .png }).pages = some ps := by
          rw [hinp]; exact ⟨hsucc, hpages⟩
        obtain ⟨hout, hdb⟩ := execTool_success render parse st ps hsucc2 hpages2
        constructor
        · rw [lastDbTypst_eq, dbLogsOf_append, hno.2, hdb]
          simp [hinp]
        · rw [hno.1, hout]
          refine ⟨_, rfl, ?_, ?_, ?_⟩ <;> simp [hinp]
      · rename_i hc
        rw [if_neg hc]
        exact ih st (by simpa using h)
    | blockStartText => exact ih st (by simpa [runEvents, step] using h)
    | blockStartToolUse bid bname =>
      have h2 := ih { st with toolUseId := bid, toolName := bname, toolInput := "" }
        (by simpa [runEvents, step, toolCallLogsOf_frame_cons] using h)
      simpa [runEvents, step, lastDbTypst_eq, dbLogsOf_frame_cons] using h2
    | textDelta t2 =>
      have h2 := ih { st with currentText := st.currentText ++ t2 }
        (by simpa [runEvents, step, toolCallLogsOf_frame_cons] using h)
      simpa [runEvents, step, lastDbTypst_eq, dbLogsOf_frame_cons] using h2
    | inputJsonDelta j => exact ih _ (by simpa [runEvents, step] using h)
    | messageStop => exact ih st (by simpa [runEvents, step] using h)

/-- A run with exactly one persisted `tool_call`, whose PNG render fails:
the tool outcome records the invocation's markup and the renderer's error,
and the conversation record is never updated. -/
theorem runEvents_single_failure (render : TypstRenderRequest → TypstRenderResponse)
    (parse : String → Except String ToolInput) (t : String) (inp : ToolInput)
    (hfail : (render { code := inp.code, format := .png }).success = false) :
    ∀ es st, toolCallLogsOf (runEvents render parse st es).2 = [(t, inp)] →
      (runEvents render parse st es).1.typstOutput = some
        { code := inp.code, pages := none, pdfUrl := none,
          error := (render { code := inp.code, format := .png }).error } ∧
      dbLogsOf (runEvents render parse st es).2 = [] := by
  intro es
  induction es with
  | nil => intro st h; simp [runEvents, toolCallLogsOf] at h
  | cons e es ih =>
    intro st h
    cases e with
    | blockStop =>
      simp only [runEvents, step] at h ⊢
      split at h
      · rename_i hc
        rw [if_pos hc]
        rw [toolCallLogsOf_append, execTool_toolCalls] at h
        simp only [List.singleton_append, List.cons.injEq, Prod.mk.injEq] at h
        obtain ⟨⟨hname, hinp⟩, hrest⟩ := h
        have hno := runEvents_no_toolCall render parse es _ hrest
        have hfail2 :
            (render { code := (parsedInput parse st.toolInput).code, format := .png }).success = false := by
          rw [hinp]; exact hfail
        obtain ⟨hout, hdb⟩ := execTool_failure render parse st hfail2
        constructor
        · rw [hno.1, hout, hinp]
        · rw [dbLogsOf_append, hno.2, hdb]
          rfl
      · rename_i hc
        rw [if_neg hc]
        exact ih st (by simpa using h)
    | blockStartText => exact ih st (by simpa [runEvents, step] using h)
    | blockStartToolUse bid bname =>
      have h2 := ih { st with toolUseId := bid, toolName := bname, toolInput := "" }
        (by simpa [runEvents, step, toolCallLogsOf_frame_cons] using h)
      simpa [runEvents, step, dbLogsOf_frame_cons] using h2
    | textDelta t2 =>
      have h2 := ih { st with currentText := st.currentText ++ t2 }
        (by simpa [runEvents, step, toolCallLogsOf_frame_cons] using h)
      simpa [runEvents, step, dbLogsOf_frame_cons] using h2
    | inputJsonDelta j => exact ih _ (by simpa [runEvents, step] using h)
    | messageStop => exact ih st (by simpa [runEvents, step] using h)

/-- Once set, the tool outcome is never cleared by the loop. -/
theorem runEvents_isSome_mono (render : TypstRenderRequest → TypstRenderResponse)
    (parse : String → Except String ToolInput) :
    ∀ es st, st.typstOutput.isSome = true →
      (runEvents render parse st es).1.typstOutput.isSome = true := by
  intro es
  induction es with
  | nil => intro st h; simpa [runEvents] using h
  | cons e es ih =>
    intro st h
    cases e with
    | blockStop =>
      simp only [runEvents, step]
      split
      · exact ih _ (execTool_isSome render parse st)
      · exact ih st h
    | blockStartText => simpa [runEvents, step] using ih st h
    | blockStartToolUse bid bname => simpa [runEvents, step] using ih _ (by simpa using h)
    | textDelta t => simpa [runEvents, step] using ih _ (by simpa using h)
    | inputJsonDelta j => simpa [runEvents, step] using ih _ (by simpa using h)
    | messageStop => simpa [runEvents, step] using ih st h

/-- If any `tool_call` entry was persisted, a tool outcome is recorded. -/
theorem runEvents_toolCall_isSome (render : TypstRenderRequest → TypstRenderResponse)
    (parse : String → Except String ToolInput) :
    ∀ es st, toolCallLogsOf (runEvents render parse st es).2 ≠ [] →
      (runEvents render parse st es).1.typstOutput.isSome = true := by
  intro es
  induction es with
  | nil => intro st h; simp [runEvents, toolCallLogsOf] at h
  | cons e es ih =>
    intro st h
    cases e with
    | blockStop =>
      simp only [runEvents, step] at h ⊢
      split
      · exact runEvents_isSome_mono render parse es _ (execTool_isSome render parse st)
      · rename_i hc
        rw [if_neg hc] at h
        exact ih st (by simpa using h)
    | blockStartText => exact ih st (by simpa [runEvents, step] using h)
    | blockStartToolUse bid bname =>
      have h2 : toolCallLogsOf
          (runEvents render parse
            { st with toolUseId := bid, toolName := bname, toolInput := "" } es).2 ≠ [] := by
        simpa [runEvents, step, toolCallLogsOf_frame_cons] using h
      simpa [runEvents, step] using ih _ h2
    | textDelta t =>
      have h2 : toolCallLogsOf
          (runEvents render parse { st with currentText := st.currentText ++ t } es).2 ≠ [] := by
        simpa [runEvents, step, toolCallLogsOf_frame_cons] using h
      simpa [runEvents, step] using ih _ h2
    | inputJsonDelta j => exact ih _ (by simpa [runEvents, step] using h)
    | messageStop => exact ih st (by simpa [runEvents, step] using h)

/-- The continuation loop only appends text to the accumulator. -/
theorem runCont_state :
    ∀ es st, (runCont st es).1 = { st with currentText := st.currentText ++ concatTexts es } := by
  intro es
  induction es with
  | nil => intro st; cases st; simp [runCont, concatTexts]
  | cons e es ih =>
    intro st
    cases e with
    | textDelta t =>
      simp only [runCont, concatTexts]
      rw [ih]
      simp [String.append_assoc]
    | blockStartText => simpa [runCont, concatTexts] using ih st
    | blockStartToolUse bid bname => simpa [runCont, concatTexts] using ih st
    | inputJsonDelta j => simpa [runCont, concatTexts] using ih st
    | blockStop => simpa [runCont, concatTexts] using ih st
    | messageStop => simpa [runCont, concatTexts] using ih st

/-- The continuation loop emits only `text` frames. -/
theorem runCont_acts : ∀ es st, ((runCont st es).2.all isTextAct) = true := by
  intro es
  induction es with
  | nil => intro st; rfl
  | cons e es ih =>
    intro st
    cases e with
    | textDelta t => simpa [runCont, isTextAct] using ih _
    | blockStartText => simpa [runCont] using ih st
    | blockStartToolUse bid bname => simpa [runCont] using ih st
    | inputJsonDelta j => simpa [runCont] using ih st
    | blockStop => simpa [runCont] using ih st
    | messageStop => simpa [runCont] using ih st

/-- The first stream's loop persists no assistant entry. -/
theorem runEvents_no_assist (render : TypstRenderRequest → TypstRenderResponse)
    (parse : String → Except String ToolInput) (es : List MEvent) (st : TurnState) :
    assistantLogsOf (runEvents render parse st es).2 = [] := by
  have h := runEvents_clean render parse es st
  rw [List.all_eq_true] at h
  rw [assistantLogsOf, List.filterMap_eq_nil_iff]
  intro a ha
  have h2 := h a ha
  cases a with
  | frame f => rfl
  | dbTypst c p => rfl
  | render q => rfl
  | log p =>
    cases p with
    | user c => rfl
    | toolCall t i => rfl
    | toolResult t s n e => rfl
    | assistant q => simp [isAssistAct] at h2

/-- The first stream's loop emits no `done` or `error` frame. -/
theorem runEvents_frames_nonterm (render : TypstRenderRequest → TypstRenderResponse)
    (parse : String → Except String ToolInput) (es : List MEvent) (st : TurnState) :
    ∀ f ∈ framesOf (runEvents render parse st es).2, isTermFrame f = false := by
  have h := runEvents_clean render parse es st
  rw [List.all_eq_true] at h
  intro f hf
  rw [framesOf, List.mem_filterMap] at hf
  obtain ⟨a, ha, hfa⟩ := hf
  have h2 := h a ha
  cases a with
  | frame g =>
    have hg : g = f := by simpa using hfa
    subst hg
    simp [isTermAct, isAssistAct] at h2
    exact h2
  | dbTypst c p => cases hfa
  | render q => cases hfa
  | log p => cases hfa

/-- The continuation loop persists nothing, updates nothing, and emits only
non-terminal (`text`) frames. -/
theorem runCont_proj (st : TurnState) (es : List MEvent) :
    toolCallLogsOf (runCont st es).2 = [] ∧ assistantLogsOf (runCont st es).2 = [] ∧
    dbLogsOf (runCont st es).2 = [] ∧
    ∀ f ∈ framesOf (runCont st es).2, isTermFrame f = false := by
  have h := runCont_acts es st
  rw [List.all_eq_true] at h
  refine ⟨?_, ?_, ?_, ?_⟩
  · rw [toolCallLogsOf, List.filterMap_eq_nil_iff]
    intro a ha
    have h2 := h a ha
    cases a with
    | frame f => cases f <;> rfl
    | dbTypst c p => rfl
    | render q => rfl
    | log p => simp [isTextAct] at h2
  · rw [assistantLogsOf, List.filterMap_eq_nil_iff]
    intro a ha
    have h2 := h a ha
    cases a with
    | frame f => cases f <;> rfl
    | dbTypst c p => rfl
    | render q => rfl
    | log p => simp [isTextAct] at h2
  · rw [dbLogsOf, List.filterMap_eq_nil_iff]
    intro a ha
    have h2 := h a ha
    cases a with
    | frame f => cases f <;> rfl
    | dbTypst c p => simp [isTextAct] at h2
    | render q => rfl
    | log p => simp [isTextAct] at h2
  · intro f hf
    rw [framesOf, List.mem_filterMap] at hf
    obtain ⟨a, ha, hfa⟩ := hf
    have h2 := h a ha
    cases a with
    | frame g =>
      have hg : g = f := by simpa using hfa
      cases g <;> simp_all [isTextAct, isTermFrame] <;> simp [← hg, isTermFrame]
    | dbTypst c p => cases hfa
    | render q => cases hfa
    | log p => cases hfa

/-- When the input buffer is reset, building the continuation request cannot
throw. -/
theorem contThrow_none (parse : String → Except String ToolInput) (st : TurnState)
    (h : st.toolInput = "") : contThrow parse st = none := by
  simp [contThrow, h]

theorem toolCallLogsOf_log_user (m : String) (tr : List Act) :
    toolCallLogsOf (.log (.user m) :: tr) = toolCallLogsOf tr := by simp [toolCallLogsOf]

theorem toolCallLogsOf_log_assistant (a : AssistantLog) (tr : List Act) :
    toolCallLogsOf (.log (.assistant a) :: tr) = toolCallLogsOf tr := by simp [toolCallLogsOf]

theorem dbLogsOf_log_user (m : String) (tr : List Act) :
    dbLogsOf (.log (.user m) :: tr) = dbLogsOf tr := by simp [dbLogsOf]

theorem dbLogsOf_log_assistant (a : AssistantLog) (tr : List Act) :
    dbLogsOf (.log (.assistant a) :: tr) = dbLogsOf tr := by simp [dbLogsOf]

theorem assistantLogsOf_log_user (m : String) (tr : List Act) :
    assistantLogsOf (.log (.user m) :: tr) = assistantLogsOf tr := by simp [assistantLogsOf]

theorem assistantLogsOf_log_assistant (a : AssistantLog) (tr : List Act) :
    assistantLogsOf (.log (.assistant a) :: tr) = a :: assistantLogsOf tr := by
  simp [assistantLogsOf]

theorem framesOf_log_user (m : String) (tr : List Act) :
    framesOf (.log (.user m) :: tr) = framesOf tr := by simp [framesOf]

theorem framesOf_log_assistant (a : AssistantLog) (tr : List Act) :
    framesOf (.log (.assistant a) :: tr) = framesOf tr := by simp [framesOf]

theorem toolCallLogsOf_nil_eq : toolCallLogsOf [] = [] := rfl

theorem dbLogsOf_nil_eq : dbLogsOf [] = [] := rfl

theorem assistantLogsOf_nil_eq : assistantLogsOf [] = [] := rfl

theorem framesOf_nil_eq : framesOf [] = [] := rfl

/-- The `tool_call` entries and conversation-record updates of a whole turn
are exactly those of the first stream's loop. -/
theorem handle_proj (render : TypstRenderRequest → TypstRenderResponse)
    (parse : String → Except String ToolInput) (cid : String) (u : Option String)
    (events cont : List MEvent) :
    toolCallLogsOf (handleChatStream render parse cid u events cont) =
      toolCallLogsOf (runEvents render parse {} events).2 ∧
    dbLogsOf (handleChatStream render parse cid u events cont) =
      dbLogsOf (runEvents render parse {} events).2 := by
  have hcont := runCont_proj (runEvents render parse {} events).1 cont
  cases u with
  | none =>
    unfold handleChatStream
    dsimp only [List.nil_append]
    split
    · split
      · constructor <;>
          simp [toolCallLogsOf_append, dbLogsOf_append, toolCallLogsOf_frame_cons,
                dbLogsOf_frame_cons, toolCallLogsOf_nil_eq, dbLogsOf_nil_eq]
      · constructor <;>
          simp [finalize, toolCallLogsOf_append, dbLogsOf_append, toolCallLogsOf_frame_cons,
                dbLogsOf_frame_cons, toolCallLogsOf_log_assistant, dbLogsOf_log_assistant,
                toolCallLogsOf_nil_eq, dbLogsOf_nil_eq, hcont.1, hcont.2.2.1]
    · constructor <;>
        simp [finalize, toolCallLogsOf_append, dbLogsOf_append, toolCallLogsOf_frame_cons,
              dbLogsOf_frame_cons, toolCallLogsOf_log_assistant, dbLogsOf_log_assistant,
              toolCallLogsOf_nil_eq, dbLogsOf_nil_eq]
  | some m =>
    unfold handleChatStream
    dsimp only [List.cons_append, List.nil_append]
    split
    · split
      · constructor <;>
          simp [toolCallLogsOf_append, dbLogsOf_append, toolCallLogsOf_frame_cons,
                dbLogsOf_frame_cons, toolCallLogsOf_log_user, dbLogsOf_log_user,
                toolCallLogsOf_nil_eq, dbLogsOf_nil_eq]
      · constructor <;>
          simp [finalize, toolCallLogsOf_append, dbLogsOf_append, toolCallLogsOf_frame_cons,
                dbLogsOf_frame_cons, toolCallLogsOf_log_user, dbLogsOf_log_user,
                toolCallLogsOf_log_assistant, dbLogsOf_log_assistant,
                toolCallLogsOf_nil_eq, dbLogsOf_nil_eq, hcont.1, hcont.2.2.1]
    · constructor <;>
        simp [finalize, toolCallLogsOf_append, dbLogsOf_append, toolCallLogsOf_frame_cons,
              dbLogsOf_frame_cons, toolCallLogsOf_log_user, dbLogsOf_log_user,
              toolCallLogsOf_log_assistant, dbLogsOf_log_assistant,
              toolCallLogsOf_nil_eq, dbLogsOf_nil_eq]

/-- Every assistant entry a turn persists reflects the loop's final tool
outcome: the has-artifact flag, markup and error are taken from
`typstOutput`. -/
theorem handle_assist_fields (render : TypstRenderRequest → TypstRenderResponse)
    (parse : String → Except String ToolInput) (cid : String) (u : Option String)
    (events cont : List MEvent) :
    ∀ p ∈ assistantLogsOf (handleChatStream render parse cid u events cont),
      p.hasTypstOutput = (runEvents render parse {} events).1.typstOutput.isSome ∧
      p.typstCode = ((runEvents render parse {} events).1.typstOutput).map TypstOutput.code ∧
      p.typstError = ((runEvents render parse {} events).1.typstOutput).bind TypstOutput.error := by
  have hcont := runCont_proj (runEvents render parse {} events).1 cont
  have hrc := runCont_state cont (runEvents render parse {} events).1
  cases u with
  | none =>
    unfold handleChatStream
    dsimp only [List.nil_append]
    split
    · split
      · intro p hp
        simp [assistantLogsOf_append, assistantLogsOf_frame_cons, assistantLogsOf_nil_eq,
              runEvents_no_assist] at hp
      · intro p hp
        rw [hrc] at hp
        simp [finalize, assistantLogsOf_append, assistantLogsOf_frame_cons,
              assistantLogsOf_log_assistant, assistantLogsOf_nil_eq,
              runEvents_no_assist, hcont.2.1] at hp
        subst hp
        simp
    · intro p hp
      simp [finalize, assistantLogsOf_append, assistantLogsOf_frame_cons,
            assistantLogsOf_log_assistant, assistantLogsOf_nil_eq,
            runEvents_no_assist] at hp
      subst hp
      simp
  | some m =>
    unfold handleChatStream
    dsimp only [List.cons_append, List.nil_append]
    split
    · split
      · intro p hp
        simp [assistantLogsOf_append, assistantLogsOf_frame_cons, assistantLogsOf_nil_eq,
              assistantLogsOf_log_user, runEvents_no_assist] at hp
      · intro p hp
        rw [hrc] at hp
        simp [finalize, assistantLogsOf_append, assistantLogsOf_frame_cons,
              assistantLogsOf_log_assistant, assistantLogsOf_nil_eq,
              assistantLogsOf_log_user, runEvents_no_assist, hcont.2.1] at hp
        subst hp
        simp
    · intro p hp
      simp [finalize, assistantLogsOf_append, assistantLogsOf_frame_cons,
            assistantLogsOf_log_assistant, assistantLogsOf_nil_eq,
            assistantLogsOf_log_user, runEvents_no_assist] at hp
      subst hp
      simp

/-- When the tool round-trip fires and the buffer was reset, the turn
persists exactly one assistant entry: its message is the first stream's
accumulated text followed by the continuation text, and its artifact fields
reflect the tool outcome. -/
theorem handle_assist_fired (render : TypstRenderRequest → TypstRenderResponse)
    (parse : String → Except String ToolInput) (cid : String) (u : Option String)
    (events cont : List MEvent)
    (hreset : (runEvents render parse {} events).1.toolInput = "")
    (hfired : ((runEvents render parse {} events).1.toolUseId != "" &&
               (runEvents render parse {} events).1.typstOutput.isSome) = true) :
    assistantLogsOf (handleChatStream render parse cid u events cont) =
      [{ message := (runEvents render parse {} events).1.currentText ++ concatTexts cont,
         hasTypstOutput := (runEvents render parse {} events).1.typstOutput.isSome,
         typstCode := ((runEvents render parse {} events).1.typstOutput).map TypstOutput.code,
         typstError := ((runEvents render parse {} events).1.typstOutput).bind TypstOutput.error }] := by
  have hcont := runCont_proj (runEvents render parse {} events).1 cont
  have hrc := runCont_state cont (runEvents render parse {} events).1
  have hct := contThrow_none parse _ hreset
  cases u with
  | none =>
    unfold handleChatStream
    dsimp only [List.nil_append]
    rw [if_pos hfired, hct]
    dsimp only
    rw [hrc]
    simp [finalize, assistantLogsOf_append, assistantLogsOf_frame_cons,
          assistantLogsOf_log_assistant, assistantLogsOf_nil_eq,
          runEvents_no_assist, hcont.2.1]
  | some m =>
    unfold handleChatStream
    dsimp only [List.cons_append, List.nil_append]
    rw [if_pos hfired, hct]
    dsimp only
    rw [hrc]
    simp [finalize, assistantLogsOf_append, assistantLogsOf_frame_cons,
          assistantLogsOf_log_assistant, assistantLogsOf_nil_eq,
          assistantLogsOf_log_user, runEvents_no_assist, hcont.2.1]

/-- When the tool round-trip does not fire, the turn persists exactly one
assistant entry built from the loop's final state. -/
theorem handle_assist_unfired (render : TypstRenderRequest → TypstRenderResponse)
    (parse : String → Except String ToolInput) (cid : String) (u : Option String)
    (events cont : List MEvent)
    (hfired : ((runEvents render parse {} events).1.toolUseId != "" &&
               (runEvents render parse {} events).1.typstOutput.isSome) = false) :
    assistantLogsOf (handleChatStream render parse cid u events cont) =
      [{ message := (runEvents render parse {} events).1.currentText,
         hasTypstOutput := (runEvents render parse {} events).1.typstOutput.isSome,
         typstCode := ((runEvents render parse {} events).1.typstOutput).map TypstOutput.code,
         typstError := ((runEvents render parse {} events).1.typstOutput).bind TypstOutput.error }] := by
  cases u with
  | none =>
    unfold handleChatStream
    dsimp only [List.nil_append]
    rw [if_neg (by simp [hfired])]
    simp [finalize, assistantLogsOf_append, assistantLogsOf_frame_cons,
          assistantLogsOf_log_assistant, assistantLogsOf_nil_eq, runEvents_no_assist]
  | some m =>
    unfold handleChatStream
    dsimp only [List.cons_append, List.nil_append]
    rw [if_neg (by simp [hfired])]
    simp [finalize, assistantLogsOf_append, assistantLogsOf_frame_cons,
          assistantLogsOf_log_assistant, assistantLogsOf_nil_eq,
          assistantLogsOf_log_user, runEvents_no_assist]

/-- When the buffer was reset, the turn's frame sequence is a body of
non-terminal frames followed by exactly one `done` frame. -/
theorem handle_frames_done (render : TypstRenderRequest → TypstRenderResponse)
    (parse : String → Except String ToolInput) (cid : String) (u : Option String)
    (events cont : List MEvent)
    (hreset : (runEvents render parse {} events).1.toolInput = "") :
    ∃ body m, framesOf (handleChatStream render parse cid u events cont) = body ++ [.done m] ∧
      ∀ f ∈ body, isTermFrame f = false := by
  have hcont := runCont_proj (runEvents render parse {} events).1 cont
  have hct := contThrow_none parse _ hreset
  have hnt := runEvents_frames_nonterm render parse events ({} : TurnState)
  cases u with
  | none =>
    unfold handleChatStream
    dsimp only [List.nil_append]
    split
    · rw [hct]
      dsimp only
      refine ⟨Frame.conversationId cid ::
        (framesOf (runEvents render parse {} events).2 ++
          (Frame.assistantContinue :: framesOf (runCont (runEvents render parse {} events).1 cont).2)),
        ((runCont (runEvents render parse {} events).1 cont).1).currentText, ?_, ?_⟩
      · simp [finalize, framesOf_append, framesOf_frame_cons, framesOf_log_assistant,
              framesOf_nil_eq]
      · intro f hf
        simp only [List.mem_cons, List.mem_append] at hf
        rcases hf with rfl | hf | rfl | hf
        · rfl
        · exact hnt f hf
        · rfl
        · exact hcont.2.2.2 f hf
    · refine ⟨Frame.conversationId cid :: framesOf (runEvents render parse {} events).2,
        (runEvents render parse {} events).1.currentText, ?_, ?_⟩
      · simp [finalize, framesOf_append, framesOf_frame_cons, framesOf_log_assistant,
              framesOf_nil_eq]
      · intro f hf
        rcases List.mem_cons.1 hf with rfl | hf
        · rfl
        · exact hnt f hf
  | some m =>
    unfold handleChatStream
    dsimp only [List.cons_append, List.nil_append]
    split
    · rw [hct]
      dsimp only
      refine ⟨Frame.conversationId cid ::
        (framesOf (runEvents render parse {} events).2 ++
          (Frame.assistantContinue :: framesOf (runCont (runEvents render parse {} events).1 cont).2)),
        ((runCont (runEvents render parse {} events).1 cont).1).currentText, ?_, ?_⟩
      · simp [finalize, framesOf_append, framesOf_frame_cons, framesOf_log_assistant,
              framesOf_log_user, framesOf_nil_eq]
      · intro f hf
        simp only [List.mem_cons, List.mem_append] at hf
        rcases hf with rfl | hf | rfl | hf
        · rfl
        · exact hnt f hf
        · rfl
        · exact hcont.2.2.2 f hf
    · refine ⟨Frame.conversationId cid :: framesOf (runEvents render parse {} events).2,
        (runEvents render parse {} events).1.currentText, ?_, ?_⟩
      · simp [finalize, framesOf_append, framesOf_frame_cons, framesOf_log_assistant,
              framesOf_log_user, framesOf_nil_eq]
      · intro f hf
        rcases List.mem_cons.1 hf with rfl | hf
        · rfl
        · exact hnt f hf

/-- The tool step always issues the PNG render request for the parsed (or
sentinel) input. -/
theorem execTool_render_mem (render : TypstRenderRequest → TypstRenderResponse)
    (parse : String → Except String ToolInput) (st : TurnState) :
    Act.render { code := (parsedInput parse st.toolInput).code, format := .png } ∈
      (execTool render parse st).2 := by
  unfold execTool
  dsimp only
  split <;> simp

/-! ## Claims about the Turn Engine (C1, C3, C4, C6, C8, C10) -/

/-- Claim C1: when a tool-use block closes with a nonempty buffered input
that does not parse, the engine substitutes the sentinel input
`{code: "", description: ""}` and proceeds with the tool step (persisting
the `tool_call` entry and issuing the render request for the empty markup)
rather than aborting; and such a turn — like every turn whose loop ends
with the input buffer reset — still terminates with a single final `done`
frame and no `error` frame. -/
theorem spec_c1 :
    (∀ (render : TypstRenderRequest → TypstRenderResponse)
       (parse : String → Except String ToolInput) (st : TurnState) (e : String),
      st.toolName ≠ "" → st.toolInput ≠ "" → parse st.toolInput = .error e →
      toolCallLogsOf (step render parse st .blockStop).2 =
        [(st.toolName, { code := "", description := "" })] ∧
      Act.render { code := "", format := .png } ∈ (step render parse st .blockStop).2)
    ∧ (∀ (render : TypstRenderRequest → TypstRenderResponse)
        (parse : String → Except String ToolInput) (cid : String) (u : Option String)
        (events cont : List MEvent),
      (runEvents render parse {} events).1.toolInput = "" →
      ∃ body m, framesOf (handleChatStream render parse cid u events cont) =
          body ++ [.done m] ∧
        ∀ f ∈ body, isTermFrame f = false) := by
  constructor
  · intro render parse st e hname hbuf hperr
    have hc : (st.toolName != "" && st.toolInput != "") = true := by simp [hname, hbuf]
    have hpi : parsedInput parse st.toolInput = { code := "", description := "" } := by
      simp [parsedInput, hperr]
    simp only [step]
    rw [if_pos hc]
    constructor
    · rw [execTool_toolCalls, hpi]
    · have hm := execTool_render_mem render parse st
      rw [hpi] at hm
      exact hm
  · intro render parse cid u events cont hreset
    exact handle_frames_done render parse cid u events cont hreset

/-- Claim C3: a turn that persists exactly one `tool_call`, whose PNG render
succeeds, stores that invocation's markup in the conversation record
(`typst_code` = the tool's input code) and flags its assistant entry with
`hasTypstOutput = true`. -/
theorem spec_c3 (render : TypstRenderRequest → TypstRenderResponse)
    (parse : String → Except String ToolInput) (cid : String) (u : Option String)
    (events cont : List MEvent) (t : String) (inp : ToolInput) (ps : List String)
    (hcalls : toolCallLogsOf (handleChatStream render parse cid u events cont) = [(t, inp)])
    (hsucc : (render { code := inp.code, format := .png }).success = true)
    (hpages : (render { code := inp.code, format := .png }).pages = some ps) :
    lastDbTypst (handleChatStream render parse cid u events cont) =
      some (inp.code, ps.map (fun q => "data:image/png;base64," ++ q)) ∧
    ∀ p ∈ assistantLogsOf (handleChatStream render parse cid u events cont),
      p.hasTypstOutput = true := by
  obtain ⟨hTC, hDB⟩ := handle_proj render parse cid u events cont
  rw [hTC] at hcalls
  obtain ⟨hdb, out, hout, hcode, hpg, herr⟩ :=
    runEvents_single_success render parse t inp ps hsucc hpages events {} hcalls
  constructor
  · rw [lastDbTypst_eq, hDB]
    exact hdb
  · intro p hp
    have hf := handle_assist_fields render parse cid u events cont p hp
    rw [hf.1, hout]
    rfl

/-- Claim C10: whenever a tool invocation was attempted in the turn, the
persisted assistant entry's `hasTypstOutput` flag is true — including when
the render failed, in which case `typstCode` carries the invocation's
markup and `typstError` the renderer's error message. -/
theorem spec_c10 (render : TypstRenderRequest → TypstRenderResponse)
    (parse : String → Except String ToolInput) (cid : String) (u : Option String)
    (events cont : List MEvent) :
    (toolCallLogsOf (handleChatStream render parse cid u events cont) ≠ [] →
      ∀ p ∈ assistantLogsOf (handleChatStream render parse cid u events cont),
        p.hasTypstOutput = true) ∧
    (∀ (t : String) (inp : ToolInput) (e : String),
      toolCallLogsOf (handleChatStream render parse cid u events cont) = [(t, inp)] →
      (render { code := inp.code, format := .png }).success = false →
      (render { code := inp.code, format := .png }).error = some e →
      ∀ p ∈ assistantLogsOf (handleChatStream render parse cid u events cont),
        p.hasTypstOutput = true ∧ p.typstCode = some inp.code ∧ p.typstError = some e) := by
  obtain ⟨hTC, hDB⟩ := handle_proj render parse cid u events cont
  constructor
  · intro hne p hp
    rw [hTC] at hne
    have hs := runEvents_toolCall_isSome render parse events {} hne
    have hf := handle_assist_fields render parse cid u events cont p hp
    rw [hf.1]
    exact hs
  · intro t inp e hcalls hfail herr p hp
    rw [hTC] at hcalls
    obtain ⟨hout, hdb⟩ := runEvents_single_failure render parse t inp hfail events {} hcalls
    have hf := handle_assist_fields render parse cid u events cont p hp
    refine ⟨?_, ?_, ?_⟩
    · rw [hf.1, hout]; rfl
    · rw [hf.2.1, hout]; rfl
    · rw [hf.2.2, hout]
      simp [herr]

/-- Claim C4: in a turn whose tool round-trip fires (here stated for the
render-failure shape, `typstOutput.error` set), the persisted assistant
entry's message is the concatenation, in call order, of all text fragments
of the first model call followed by all text fragments of the continuation
call — no fragment dropped or reordered. -/
theorem spec_c4 (render : TypstRenderRequest → TypstRenderResponse)
    (parse : String → Except String ToolInput) (cid : String) (u : Option String)
    (events cont : List MEvent) (out : TypstOutput)
    (hid : (runEvents render parse {} events).1.toolUseId ≠ "")
    (hreset : (runEvents render parse {} events).1.toolInput = "")
    (hout : (runEvents render parse {} events).1.typstOutput = some out)
    (herr : out.error.isSome = true) :
    (assistantLogsOf (handleChatStream render parse cid u events cont)).map
        (fun p => p.message) =
      [concatTexts events ++ concatTexts cont] := by
  have hfired : ((runEvents render parse {} events).1.toolUseId != "" &&
      (runEvents render parse {} events).1.typstOutput.isSome) = true := by
    simp [hid, hout]
  rw [handle_assist_fired render parse cid u events cont hreset hfired]
  simp [runEvents_currentText]

/-- The `pdfUrl` field the success branch computes from the PDF render. -/
def pdfUrlOf (render : TypstRenderRequest → TypstRenderResponse) (c : String) : Option String :=
  match (render { code := c, format := Format.pdf }).data with
  | some d =>
    if (render { code := c, format := Format.pdf }).success
    then some ("data:application/pdf;base64," ++ d) else none
  | none => none

/-- The `TypstOutput` the success branch of the tool step sends. -/
def successOut (render : TypstRenderRequest → TypstRenderResponse)
    (parse : String → Except String ToolInput) (st : TurnState) : TypstOutput :=
  { code := (parsedInput parse st.toolInput).code,
    pages := some
      (((render { code := (parsedInput parse st.toolInput).code, format := Format.png }).pages.getD []).map
        (fun p => "data:image/png;base64," ++ p)),
    pdfUrl := pdfUrlOf render (parsedInput parse st.toolInput).code,
    error := none }

/-- Claim C6: in the tool step of a turn whose page (PNG) render succeeds,
the exportable PDF variant is requested immediately before the success
`tool_result` frame is emitted, and a failure of that PDF render does not
change the outcome: the frame still reports success, merely with
`pdfUrl` absent. -/
theorem spec_c6 (render : TypstRenderRequest → TypstRenderResponse)
    (parse : String → Except String ToolInput) (st : TurnState) (ps : List String)
    (hname : st.toolName ≠ "") (hbuf : st.toolInput ≠ "")
    (hsucc : (render { code := (parsedInput parse st.toolInput).code, format := .png }).success = true)
    (hpages : (render { code := (parsedInput parse st.toolInput).code, format := .png }).pages = some ps) :
    ∃ pre out,
      (step render parse st .blockStop).2 =
        pre ++ [ .render { code := (parsedInput parse st.toolInput).code, format := .pdf },
                 .frame (.toolResult st.toolName true (some out) none none) ] ∧
      out.code = (parsedInput parse st.toolInput).code ∧
      ((render { code := (parsedInput parse st.toolInput).code, format := .pdf }).success = false →
        out.pdfUrl = none) := by
  have hc : (st.toolName != "" && st.toolInput != "") = true := by simp [hname, hbuf]
  simp only [step]
  rw [if_pos hc]
  unfold execTool
  dsimp only
  rw [if_pos (by simp [hsucc, hpages])]
  refine ⟨[ .log (.toolCall st.toolName (parsedInput parse st.toolInput)),
            .frame (.toolInputReady st.toolName (parsedInput parse st.toolInput)),
            .frame (.toolExecuting st.toolName),
            .render { code := (parsedInput parse st.toolInput).code, format := .png },
            .log (.toolResult st.toolName
              (render { code := (parsedInput parse st.toolInput).code, format := .png }).success
              ((render { code := (parsedInput parse st.toolInput).code, format := .png }).pages.map
                List.length)
              (render { code := (parsedInput parse st.toolInput).code, format := .png }).error),
            .dbTypst (parsedInput parse st.toolInput).code
              (ps.map (fun q => "data:image/png;base64," ++ q)) ],
          successOut render parse st,
          ?_, rfl, ?_⟩
  · simp [successOut, pdfUrlOf, hpages]
  · intro hpf
    cases hd : (render { code := (parsedInput parse st.toolInput).code, format := .pdf }).data with
    | none => simp [successOut, pdfUrlOf, hd]
    | some d => simp [successOut, pdfUrlOf, hd, hpf]

/-- Claim C8 (amended): aborting delivery after `k` frames (the engine keeps
running: `send` swallows enqueue failures on a cancelled stream, so an abort
truncates delivery, not the trace) means no `done` or `error` frame is
delivered when the abort happens before completion, and every persisted
entry — the tool entries and also the final assistant entry — is still
written to the log. -/
theorem spec_c8 (render : TypstRenderRequest → TypstRenderResponse)
    (parse : String → Except String ToolInput) (cid : String) (u : Option String)
    (events cont : List MEvent) (k : Nat)
    (hreset : (runEvents render parse {} events).1.toolInput = "")
    (hk : k < (framesOf (handleChatStream render parse cid u events cont)).length) :
    (∀ f ∈ deliveredFrames k (handleChatStream render parse cid u events cont),
      isTermFrame f = false) ∧
    (assistantLogsOf (handleChatStream render parse cid u events cont)).length = 1 := by
  obtain ⟨body, m, hfr, hb⟩ := handle_frames_done render parse cid u events cont hreset
  constructor
  · intro f hf
    have hk2 : k ≤ body.length := by
      rw [hfr] at hk
      simp at hk
      omega
    rw [deliveredFrames, hfr, List.take_append_of_le_length hk2] at hf
    exact hb f (List.take_subset k body hf)
  · by_cases hfired : ((runEvents render parse {} events).1.toolUseId != "" &&
        (runEvents render parse {} events).1.typstOutput.isSome) = true
    · rw [handle_assist_fired render parse cid u events cont hreset hfired]
      rfl
    · rw [handle_assist_unfired render parse cid u events cont (by simpa using hfired)]
      rfl

/-! ### Concrete collaborators and streams for the witnesses -/

/-- A render oracle with the interface-level behaviour of the real renderer
on a healthy system: blank markup is rejected, PNG renders yield two pages,
PDF renders yield one blob. -/
def renderStub : TypstRenderRequest → TypstRenderResponse := fun req =>
  if blankCode req.code then { success := false, error := some "No Typst code provided" }
  else
    match req.format with
    | .png => { success := true, pages := some ["P1", "P2"], mimeType := some "image/png" }
    | .pdf => { success := true, data := some "PDFB", mimeType := some "application/pdf" }
    | .svg => { success := true, pages := some ["<svg/>"], mimeType := some "image/svg+xml" }

/-- A render oracle whose compiles always fail. -/
def renderFail : TypstRenderRequest → TypstRenderResponse := fun _ =>
  { success := false, error := some "unknown variable" }

/-- A parse oracle: the well-formed tool input parses, everything else
raises a syntax error. -/
def parseStub : String → Except String ToolInput := fun s =>
  if s = "\x7b\"code\":\"#doc\",\"description\":\"d\"\x7d" then
    .ok { code := "#doc", description := "d" }
  else .error "Unexpected token"

/-- A first model stream: text, then a tool-use block with well-formed
input split across two fragments. -/
def evStream : List MEvent :=
  [.blockStartText, .textDelta "Here is your document. ", .blockStop,
   .blockStartToolUse "toolu_1" "render_typst",
   .inputJsonDelta "\x7b\"code\":\"#doc\",",
   .inputJsonDelta "\"description\":\"d\"\x7d",
   .blockStop, .messageStop]

/-- A first model stream whose buffered tool input does not parse. -/
def evStreamBad : List MEvent :=
  [.blockStartText, .textDelta "Working. ", .blockStop,
   .blockStartToolUse "toolu_1" "render_typst",
   .inputJsonDelta "\x7b\"code\":\"#doc\"",
   .blockStop, .messageStop]

/-- A continuation stream with one closing text fragment. -/
def contStream : List MEvent := [.textDelta "All done."]

/-- The loop state at the close of the malformed tool-use block. -/
def stBad : TurnState :=
  { currentText := "Working. ", toolUseId := "toolu_1", toolName := "render_typst",
    toolInput := "\x7b\"code\":\"#doc\"", typstOutput := none }

/-- The loop state at the close of the well-formed tool-use block. -/
def stGood : TurnState :=
  { currentText := "Here is your document. ", toolUseId := "toolu_1",
    toolName := "render_typst",
    toolInput := "\x7b\"code\":\"#doc\",\"description\":\"d\"\x7d", typstOutput := none }

/-- Witness for C1: the malformed buffer is replaced by the sentinel input,
the tool step runs, and the turn ends with `done`. -/
theorem spec_c1_witness :
    (toolCallLogsOf (step renderStub parseStub stBad .blockStop).2 =
       [("render_typst", { code := "", description := "" })] ∧
     Act.render { code := "", format := .png } ∈ (step renderStub parseStub stBad .blockStop).2) ∧
    (∃ body m,
      framesOf (handleChatStream renderStub parseStub "conv_1" (some "make a doc")
          evStreamBad contStream) =
        body ++ [.done m] ∧ ∀ f ∈ body, isTermFrame f = false) :=
  ⟨spec_c1.1 renderStub parseStub stBad "Unexpected token" (by decide) (by decide) rfl,
   spec_c1.2 renderStub parseStub "conv_1" (some "make a doc") evStreamBad contStream (by decide)⟩

/-- Witness for C3 at a concrete successful turn. -/
theorem spec_c3_witness :
    toolCallLogsOf (handleChatStream renderStub parseStub "conv_1" (some "make a doc")
        evStream contStream) =
      [("render_typst", { code := "#doc", description := "d" })] ∧
    (renderStub { code := "#doc", format := .png }).success = true ∧
    (renderStub { code := "#doc", format := .png }).pages = some ["P1", "P2"] ∧
    (lastDbTypst (handleChatStream renderStub parseStub "conv_1" (some "make a doc")
        evStream contStream) =
       some ("#doc", ["data:image/png;base64,P1", "data:image/png;base64,P2"]) ∧
     ∀ p ∈ assistantLogsOf (handleChatStream renderStub parseStub "conv_1" (some "make a doc")
        evStream contStream),
       p.hasTypstOutput = true) :=
  ⟨by decide, by decide, by decide,
   spec_c3 renderStub parseStub "conv_1" (some "make a doc") evStream contStream
     "render_typst" { code := "#doc", description := "d" } ["P1", "P2"]
     (by decide) (by decide) (by decide)⟩

/-- The tool outcome of the failing concrete turn. -/
def outFail : TypstOutput := { code := "#doc", error := some "unknown variable" }

/-- Witness for C4 at a concrete turn whose render fails. -/
theorem spec_c4_witness :
    ((runEvents renderFail parseStub {} evStream).1.toolUseId ≠ "" ∧
     (runEvents renderFail parseStub {} evStream).1.toolInput = "" ∧
     (runEvents renderFail parseStub {} evStream).1.typstOutput = some outFail ∧
     outFail.error.isSome = true) ∧
    (assistantLogsOf (handleChatStream renderFail parseStub "conv_1" (some "make a doc")
        evStream contStream)).map (fun p => p.message) =
      [concatTexts evStream ++ concatTexts contStream] :=
  ⟨⟨by decide, by decide, by decide, by decide⟩,
   spec_c4 renderFail parseStub "conv_1" (some "make a doc") evStream contStream outFail
     (by decide) (by decide) (by decide) (by decide)⟩

/-- Witness for C6 at the concrete tool step of a successful turn. -/
theorem spec_c6_witness :
    (stGood.toolName ≠ "" ∧ stGood.toolInput ≠ "" ∧
     (renderStub { code := (parsedInput parseStub stGood.toolInput).code, format := .png }).success = true ∧
     (renderStub { code := (parsedInput parseStub stGood.toolInput).code, format := .png }).pages = some ["P1", "P2"]) ∧
    ∃ pre out,
      (step renderStub parseStub stGood .blockStop).2 =
        pre ++ [ .render { code := (parsedInput parseStub stGood.toolInput).code, format := .pdf },
                 .frame (.toolResult stGood.toolName true (some out) none none) ] ∧
      out.code = (parsedInput parseStub stGood.toolInput).code ∧
      ((renderStub { code := (parsedInput parseStub stGood.toolInput).code, format := .pdf }).success = false →
        out.pdfUrl = none) :=
  ⟨⟨by decide, by decide, by decide, by decide⟩,
   spec_c6 renderStub parseStub stGood ["P1", "P2"]
     (by decide) (by decide) (by decide) (by decide)⟩

/-- Counterexample to C8 as stated: a concrete turn whose delivery is
aborted after 2 frames — strictly before the terminal frame — still
persists the final assistant entry (the engine is not stopped by the
abort), refuting "no assistant entry is persisted". -/
theorem spec_c8_cex :
    2 < (framesOf (handleChatStream renderStub parseStub "conv_1" (some "make a doc")
        evStream contStream)).length ∧
    (∀ f ∈ deliveredFrames 2 (handleChatStream renderStub parseStub "conv_1" (some "make a doc")
        evStream contStream), isTermFrame f = false) ∧
    (assistantLogsOf (handleChatStream renderStub parseStub "conv_1" (some "make a doc")
        evStream contStream)).length = 1 :=
  ⟨by decide, by decide, by decide⟩

/-- Witness for the amended C8 at the same concrete aborted turn. -/
theorem spec_c8_witness :
    ((runEvents renderStub parseStub {} evStream).1.toolInput = "" ∧
     2 < (framesOf (handleChatStream renderStub parseStub "conv_1" (some "make a doc")
        evStream contStream)).length) ∧
    ((∀ f ∈ deliveredFrames 2 (handleChatStream renderStub parseStub "conv_1" (some "make a doc")
        evStream contStream), isTermFrame f = false) ∧
     (assistantLogsOf (handleChatStream renderStub parseStub "conv_1" (some "make a doc")
        evStream contStream)).length = 1) :=
  ⟨⟨by decide, by decide⟩,
   spec_c8 renderStub parseStub "conv_1" (some "make a doc") evStream contStream 2
     (by decide) (by decide)⟩

/-- Witness for C10 at a concrete turn whose render fails. -/
theorem spec_c10_witness :
    toolCallLogsOf (handleChatStream renderFail parseStub "conv_1" (some "make a doc")
        evStream contStream) =
      [("render_typst", { code := "#doc", description := "d" })] ∧
    ∀ p ∈ assistantLogsOf (handleChatStream renderFail parseStub "conv_1" (some "make a doc")
        evStream contStream),
      p.hasTypstOutput = true ∧ p.typstCode = some "#doc" ∧ p.typstError = some "unknown variable" :=
  ⟨by decide,
   (spec_c10 renderFail parseStub "conv_1" (some "make a doc") evStream contStream).2
     "render_typst" { code := "#doc", description := "d" } "unknown variable"
     (by decide) (by decide) (by decide)⟩

/-! ## Claim about the Session Replay Builder (C2) -/

/-- Two invocation rows followed by two outcome rows. -/
def c2Rows : List DbMessage :=
  [ { mid := 1, timestamp := 1, content := .toolCall "render_typst" { code := "A", description := "a" } },
    { mid := 2, timestamp := 2, content := .toolCall "render_typst" { code := "B", description := "b" } },
    { mid := 3, timestamp := 3, content := .toolResult true none },
    { mid := 4, timestamp := 4, content := .toolResult false (some "boom") } ]

/-- Counterexample to C2 as stated: with two unresolved invocations followed
by two outcomes, the builder pairs BOTH outcomes with the second (most
recent) tool message — `findLastIndex` ignores whether it is already
resolved — so the first invocation stays at status `calling` (the claim
predicts the second outcome resolves it) and the second invocation's
success status is overwritten by the second outcome. -/
theorem spec_c2_cex :
    buildMessages c2Rows =
      [ { mid := 1, role := .tool, content := "", timestamp := 1,
          toolCall := some { name := "render_typst", status := .calling, input := some { code := "A", description := "a" } } },
        { mid := 2, role := .tool, content := "", timestamp := 2,
          toolCall := some { name := "render_typst", status := .error, input := some { code := "B", description := "b" }, errMsg := some "boom" } } ] := by
  decide

/-- Claim C2, amended: the builder pairs each tool-outcome row with the most
recently appended tool-role message whether or not it is already resolved
(overwriting its status and error); an invocation row always appends a
fresh message with status `calling`; an outcome with no tool message at all
leaves the list unchanged (no throw); and with two invocations followed by
two outcomes, both outcomes land on the second invocation — the second
overwriting the first — while the first invocation stays at `calling`. -/
theorem spec_c2 :
    (∀ (rows : List DbMessage) (m : DbMessage) (t : String) (i : ToolInput),
      m.content = .toolCall t i →
      buildMessages (rows ++ [m]) = buildMessages rows ++
        [{ mid := m.mid, role := .tool, content := "", timestamp := m.timestamp,
           toolCall := some { name := t, status := .calling, input := some i } }])
    ∧ (∀ (rows : List DbMessage) (m : DbMessage) (s : Bool) (e : Option String),
      m.content = .toolResult s e →
      buildMessages (rows ++ [m]) = updateLastTool s e (buildMessages rows))
    ∧ (∀ (s : Bool) (e : Option String) (ms : List UiMessage),
      (∀ x ∈ ms, isToolMsg x = false) → updateLastTool s e ms = ms)
    ∧ (∀ (m1 m2 m3 m4 : DbMessage) (t1 : String) (i1 : ToolInput) (t2 : String) (i2 : ToolInput)
        (s1 : Bool) (e1 : Option String) (s2 : Bool) (e2 : Option String),
      m1.content = .toolCall t1 i1 → m2.content = .toolCall t2 i2 →
      m3.content = .toolResult s1 e1 → m4.content = .toolResult s2 e2 →
      buildMessages [m1, m2, m3, m4] =
        [ { mid := m1.mid, role := .tool, content := "", timestamp := m1.timestamp,
            toolCall := some { name := t1, status := .calling, input := some i1 } },
          { mid := m2.mid, role := .tool, content := "", timestamp := m2.timestamp,
            toolCall := some { name := t2, status := if s2 then .success else .error, input := some i2, errMsg := e2 } } ]) := by
  refine ⟨?_, ?_, ?_, ?_⟩
  · intro rows m t i hm
    simp [buildMessages, List.foldl_append, buildStep, hm]
  · intro rows m s e hm
    simp [buildMessages, List.foldl_append, buildStep, hm]
  · intro s e ms h
    cases ms with
    | nil => rfl
    | cons m ms2 =>
      have h1 : isToolMsg m = false := h m (List.mem_cons_self m ms2)
      have h2 : ms2.any isToolMsg = false := by
        rw [List.any_eq_false]
        intro x hx
        simp [h x (List.mem_cons_of_mem m hx)]
      simp [updateLastTool, h1, h2]
  · intro m1 m2 m3 m4 t1 i1 t2 i2 s1 e1 s2 e2 h1 h2 h3 h4
    simp [buildMessages, buildStep, h1, h2, h3, h4, updateLastTool, isToolMsg, applyOutcome]

/-- Witness for the amended C2 at concrete rows. -/
theorem spec_c2_witness :
    (buildMessages ([] ++
        [{ mid := 5, timestamp := 5,
           content := .toolCall "render_typst" { code := "C", description := "c" } }]) =
      buildMessages [] ++
        [{ mid := 5, role := .tool, content := "", timestamp := 5,
           toolCall := some { name := "render_typst", status := .calling, input := some { code := "C", description := "c" } } }]) ∧
    buildMessages c2Rows =
      [ { mid := 1, role := .tool, content := "", timestamp := 1,
          toolCall := some { name := "render_typst", status := .calling, input := some { code := "A", description := "a" } } },
        { mid := 2, role := .tool, content := "", timestamp := 2,
          toolCall := some { name := "render_typst", status := .error, input := some { code := "B", description := "b" }, errMsg := some "boom" } } ] :=
  ⟨spec_c2.1 []
      { mid := 5, timestamp := 5,
        content := .toolCall "render_typst" { code := "C", description := "c" } }
      "render_typst" { code := "C", description := "c" } rfl,
   spec_c2.2.2.2
      { mid := 1, timestamp := 1, content := .toolCall "render_typst" { code := "A", description := "a" } }
      { mid := 2, timestamp := 2, content := .toolCall "render_typst" { code := "B", description := "b" } }
      { mid := 3, timestamp := 3, content := .toolResult true none }
      { mid := 4, timestamp := 4, content := .toolResult false (some "boom") }
      "render_typst" { code := "A", description := "a" }
      "render_typst" { code := "B", description := "b" }
      true none false (some "boom") rfl rfl rfl rfl⟩

/-! ## Lemmas about the Event Encoder (C7) -/

/-- `Char.ofNat` of anything but 10 is not the newline character. -/
theorem charOfNat_ne_nl (k : Nat) (hk : k ≠ 10) : Char.ofNat k ≠ '\n' := by
  intro h
  have h2 := congrArg Char.toNat h
  unfold Char.ofNat at h2
  split at h2
  · simp [Char.ofNatAux, Char.toNat] at h2
    exact hk h2
  · rename_i hval
    unfold Char.ofNat at h
    rw [dif_neg hval] at h
    exact absurd h (by decide)

/-- Hexadecimal digits are never the newline character. -/
theorem hexDigit_ne_nl (d : Nat) : hexDigit d ≠ '\n' := by
  unfold hexDigit
  split
  · exact charOfNat_ne_nl _ (by omega)
  · exact charOfNat_ne_nl _ (by omega)

/-- Decimal digit characters are never newlines. -/
theorem natDigits_ne_nl : ∀ n, ∀ c ∈ natDigits n, c ≠ '\n' := by
  intro n
  induction n using Nat.strong_induction_on with
  | _ n ih =>
    rw [natDigits]
    split
    · intro c hc
      rw [List.mem_singleton] at hc
      subst hc
      exact charOfNat_ne_nl _ (by omega)
    · rename_i h
      intro c hc
      rw [List.mem_append] at hc
      rcases hc with hc | hc
      · exact ih (n / 10) (Nat.div_lt_self (by omega) (by omega)) c hc
      · rw [List.mem_singleton] at hc
        subst hc
        exact charOfNat_ne_nl _ (by omega)

/-- Serialized integers contain no newline. -/
theorem intChars_ne_nl (n : Int) : ∀ c ∈ intChars n, c ≠ '\n' := by
  unfold intChars
  split
  · intro c hc
    rcases List.mem_cons.1 hc with rfl | hc
    · decide
    · exact natDigits_ne_nl _ c hc
  · intro c hc
    exact natDigits_ne_nl _ c hc

/-- The escape of any character contains no newline: the newline character
itself is rewritten to the two characters `\` `n`. -/
theorem escChar_ne_nl (ch : Char) : ∀ c ∈ escChar ch, c ≠ '\n' := by
  intro c hc
  unfold escChar at hc
  iterate 8 (all_goals try split at hc)
  all_goals
    first
      | (simp only [List.mem_cons, List.not_mem_nil, or_false] at hc
         rcases hc with rfl | rfl
         · decide
         · decide)
      | (simp only [List.mem_cons, List.not_mem_nil, or_false] at hc
         rcases hc with rfl | rfl | rfl | rfl | rfl | rfl
         · decide
         · decide
         · decide
         · decide
         · exact hexDigit_ne_nl _
         · exact hexDigit_ne_nl _)
      | (rw [List.mem_singleton] at hc
         subst hc
         assumption)

/-- Serialized string literals contain no newline. -/
theorem strChars_ne_nl (s : String) : ∀ c ∈ strChars s, c ≠ '\n' := by
  unfold strChars
  intro c hc
  rcases List.mem_cons.1 hc with rfl | hc
  · decide
  · rcases List.mem_append.mp hc with hc | hc
    · rw [List.mem_flatten] at hc
      obtain ⟨l, hl, hcl⟩ := hc
      rw [List.mem_map] at hl
      obtain ⟨ch, _, rfl⟩ := hl
      exact escChar_ne_nl ch c hcl
    · rw [List.mem_singleton] at hc
      subst hc
      decide

mutual

/-- `JSON.stringify` output contains no newline: structural characters are
printable and every control character inside a string is escaped. -/
theorem serialize_nn : ∀ (v : JVal), ∀ c ∈ serialize v, c ≠ '\n'
  | .jnull, c, hc => by
    simp only [serialize, List.mem_cons, List.not_mem_nil, or_false, String.toList] at hc
    rcases hc with rfl | rfl | rfl | rfl <;> decide
  | .jbool true, c, hc => by
    simp only [serialize, List.mem_cons, List.not_mem_nil, or_false, String.toList] at hc
    rcases hc with rfl | rfl | rfl | rfl <;> decide
  | .jbool false, c, hc => by
    simp only [serialize, List.mem_cons, List.not_mem_nil, or_false, String.toList] at hc
    rcases hc with rfl | rfl | rfl | rfl | rfl <;> decide
  | .jnum n, c, hc => intChars_ne_nl n c (by simpa [serialize] using hc)
  | .jstr s, c, hc => strChars_ne_nl s c (by simpa [serialize] using hc)
  | .jarr xs, c, hc => by
    simp only [serialize] at hc
    rcases List.mem_cons.1 hc with rfl | hc
    · decide
    · rcases List.mem_append.mp hc with hc | hc
      · exact serializeElems_nn xs c hc
      · rw [List.mem_singleton] at hc
        subst hc
        decide
  | .jobj fs, c, hc => by
    simp only [serialize] at hc
    rcases List.mem_cons.1 hc with rfl | hc
    · decide
    · rcases List.mem_append.mp hc with hc | hc
      · exact serializeFields_nn fs c hc
      · rw [List.mem_singleton] at hc
        subst hc
        decide

/-- Serialized array elements contain no newline. -/
theorem serializeElems_nn : ∀ (xs : List JVal), ∀ c ∈ serializeElems xs, c ≠ '\n'
  | [], c, hc => by simp [serializeElems] at hc
  | [x], c, hc => serialize_nn x c (by simpa [serializeElems] using hc)
  | x :: y :: xs, c, hc => by
    rw [serializeElems] at hc
    rcases List.mem_append.mp hc with hc | hc
    · exact serialize_nn x c hc
    · rcases List.mem_cons.1 hc with rfl | hc
      · decide
      · exact serializeElems_nn (y :: xs) c hc

/-- Serialized object members contain no newline. -/
theorem serializeFields_nn : ∀ (fs : List (String × JVal)), ∀ c ∈ serializeFields fs, c ≠ '\n'
  | [], c, hc => by simp [serializeFields] at hc
  | [(k, v)], c, hc => by
    rw [serializeFields] at hc
    rcases List.mem_append.mp hc with hc | hc
    · exact strChars_ne_nl k c hc
    · rcases List.mem_cons.1 hc with rfl | hc
      · decide
      · exact serialize_nn v c hc
  | (k, v) :: f :: fs, c, hc => by
    rw [serializeFields] at hc
    rcases List.mem_append.mp hc with hc | hc
    · rcases List.mem_append.mp hc with hc | hc
      · exact strChars_ne_nl k c hc
      · rcases List.mem_cons.1 hc with rfl | hc
        · decide
        · exact serialize_nn v c hc
    · rcases List.mem_cons.1 hc with rfl | hc
      · decide
      · exact serializeFields_nn (f :: fs) c hc

end

/-- A list without newlines has no two adjacent newlines. -/
theorem chain'_of_noNL (l : List Char) (h : ∀ c ∈ l, c ≠ '\n') :
    List.Chain' (fun a b => ¬(a = '\n' ∧ b = '\n')) l := by
  induction l with
  | nil => simp
  | cons a rest ih =>
    rw [List.chain'_cons']
    refine ⟨?_, ih fun c hc => h c (List.mem_cons_of_mem a hc)⟩
    intro y _ hcontra
    exact h a (List.mem_cons_self a rest) hcontra.1

/-- Gluing two newline-free segments with a single newline separator never
produces two adjacent newlines. -/
theorem chain'_sep (A B : List Char) (hA : ∀ c ∈ A, c ≠ '\n') (hB : ∀ c ∈ B, c ≠ '\n') :
    List.Chain' (fun a b => ¬(a = '\n' ∧ b = '\n')) (A ++ '\n' :: B) := by
  rw [List.chain'_append]
  refine ⟨chain'_of_noNL A hA, ?_, ?_⟩
  · rw [List.chain'_cons']
    refine ⟨?_, chain'_of_noNL B hB⟩
    intro y hy hcontra
    exact hB y (List.mem_of_mem_head? hy) hcontra.2
  · intro x hx y hy hcontra
    exact hA x (List.mem_of_mem_getLast? hx) hcontra.1

/-- The `event: ` prefix contains no newline. -/
theorem eventPrefix_ne_nl : ∀ c ∈ "event: ".toList, c ≠ '\n' := by decide

/-- The `data: ` prefix contains no newline. -/
theorem dataPrefix_ne_nl : ∀ c ∈ "data: ".toList, c ≠ '\n' := by decide

/-- Kind tags contain no newline. -/
theorem kindChars_ne_nl : ∀ (k : FrameKind), ∀ c ∈ kindChars k, c ≠ '\n' := by
  intro k
  cases k <;> decide

/-- Claim C7: the encoder emits exactly one frame of the shape
`event: <kind>\ndata: <json>\n\n`, and the terminating blank-line delimiter
can never occur inside the frame body: the JSON payload is a single line
(newlines in strings are escaped), so the body has no two adjacent
newlines — the delimiter occurs only as the frame's terminator. -/
theorem spec_c7 : ∀ (k : FrameKind) (v : JVal),
    encodeFrame k v =
      (("event: ".toList ++ kindChars k) ++ '\n' :: ("data: ".toList ++ serialize v)) ++
        ['\n', '\n'] ∧
    (∀ c ∈ serialize v, c ≠ '\n') ∧
    List.Chain' (fun a b => ¬(a = '\n' ∧ b = '\n'))
      (("event: ".toList ++ kindChars k) ++ '\n' :: ("data: ".toList ++ serialize v)) := by
  intro k v
  refine ⟨?_, serialize_nn v, ?_⟩
  · simp [encodeFrame]
  · apply chain'_sep
    · intro c hc
      rcases List.mem_append.mp hc with hc | hc
      · exact eventPrefix_ne_nl c hc
      · exact kindChars_ne_nl k c hc
    · intro c hc
      rcases List.mem_append.mp hc with hc | hc
      · exact dataPrefix_ne_nl c hc
      · exact serialize_nn v c hc

/-- Witness for C7 at a concrete frame whose text payload contains a
newline: the wire frame still has no interior blank line, because the
newline is escaped in the JSON payload. -/
theorem spec_c7_witness :
    wireOf (.text "a\nb") =
      (("event: ".toList ++ kindChars .text) ++
        '\n' :: ("data: ".toList ++ serialize (frameDataOf (.text "a\nb")))) ++ ['\n', '\n'] ∧
    (∀ c ∈ serialize (frameDataOf (.text "a\nb")), c ≠ '\n') ∧
    List.Chain' (fun a b => ¬(a = '\n' ∧ b = '\n'))
      (("event: ".toList ++ kindChars .text) ++
        '\n' :: ("data: ".toList ++ serialize (frameDataOf (.text "a\nb")))) :=
  spec_c7 .text (frameDataOf (.text "a\nb"))
